import Mathlib

set_option maxRecDepth 100000

/-!
Verification development for the Agent-BETA conversational copywriting server.

The definitions below are a shallow embedding of `src/server.js` and of the
variant chat pipeline in `src/unnamed/part_002` (greeting guard + preflight
gate).  JavaScript strings are modelled as Lean `String`/`List Char`; the
specific regular expressions used by the source (`/—/g`, `/ {2,}/g`,
`/\b(w1|w2|...)\b/gi`, `/\s([,.:;!?])/g`, `/\s+/`, `/\r?\n/`, word tests)
are implemented directly as recursive character scanners with the same
semantics.  Database tables are association lists of rows; network and
model calls are oracle parameters threaded explicitly.
-/

namespace AgentBeta

/-- Word character in the sense of the JavaScript regex `\b` / `\w`
(ASCII letters, digits, underscore; JS regexes here run without the `u` flag). -/
def isWordChar (c : Char) : Bool :=
  (('a' ≤ c && c ≤ 'z') || ('A' ≤ c && c ≤ 'Z') || ('0' ≤ c && c ≤ '9') || c = '_')

/-- Whitespace in the sense of the JavaScript `\s` class and `String.trim`. -/
def jsWhitespace (c : Char) : Bool :=
  c = ' ' || c = '\t' || c = '\n' || c = '\r' || c = '\x0b' || c = '\x0c' ||
  c = ' ' || c = ' ' || (' ' ≤ c && c ≤ ' ') ||
  c = ' ' || c = ' ' || c = ' ' || c = ' ' || c = '　' ||
  c = '﻿'

/-- JavaScript `String.prototype.trim` on a character list. -/
def jsTrimL (l : List Char) : List Char :=
  ((l.dropWhile jsWhitespace).reverse.dropWhile jsWhitespace).reverse

/-- JavaScript `String.prototype.trim`. -/
def jsTrimS (s : String) : String :=
  String.mk (jsTrimL s.toList)

/-- JavaScript `String.prototype.toLowerCase` (ASCII range; all source
keywords are ASCII). -/
def jsLower (s : String) : String :=
  String.mk (s.toList.map Char.toLower)

/-- JavaScript `String.prototype.toUpperCase` (ASCII range). -/
def jsUpper (s : String) : String :=
  String.mk (s.toList.map Char.toUpper)

/-- JavaScript `s.startsWith(pre)` (kernel-computable form). -/
def strStarts (s pre : String) : Bool :=
  pre.toList.isPrefixOf s.toList

/-- JavaScript `s.endsWith(suf)` (kernel-computable form). -/
def strEnds (s suf : String) : Bool :=
  suf.toList.isSuffixOf s.toList

/-- Replace the em-dash with a colon: the regex `text.replace(/—/g, ":")`
in `scrubOutput`. -/
def replaceEmDash (l : List Char) : List Char :=
  l.map (fun c => if c = '—' then ':' else c)

/-- Collapse runs of two or more literal spaces to a single space:
the regex `text.replace(/ {2,}/g, " ")` in `scrubOutput`. -/
def collapseSpaces : List Char → List Char
  | [] => []
  | [c] => [c]
  | c₁ :: c₂ :: rest =>
    if c₁ = ' ' && c₂ = ' ' then collapseSpaces (c₂ :: rest)
    else c₁ :: collapseSpaces (c₂ :: rest)

/-- Absence of two adjacent literal spaces (the post-condition of the
space-collapsing step, used to reason about repeated scrubbing). -/
def noDbl : List Char → Bool
  | [] => true
  | [_] => true
  | a :: b :: r => !(a = ' ' && b = ' ') && noDbl (b :: r)

/-- Case-insensitive literal prefix match, as the `i` flag gives for the
escaped banned words (first argument: pattern word, second: text). -/
def startsWithCI : List Char → List Char → Bool
  | [], _ => true
  | _ :: _, [] => false
  | a :: as, b :: bs => (a.toLower = b.toLower) && startsWithCI as bs

/-- Word-character status of the last character of `w`, defaulting to `pw`
for the empty word (used to evaluate the trailing `\b` of a match). -/
def lastIsWord (pw : Bool) (w : List Char) : Bool :=
  match w.getLast? with
  | some c => isWordChar c
  | none => pw

/-- Word-character status of the head of `l` (`false` past the end of input). -/
def headIsWord (l : List Char) : Bool :=
  match l.head? with
  | some c => isWordChar c
  | none => false

/-- Trailing `\b` test for a candidate match of `w` at the current position,
where `pw` is the word-status of the character before the position. -/
def wordEndsOk (pw : Bool) (w text : List Char) : Bool :=
  lastIsWord pw w != headIsWord (text.drop w.length)

/-- First alternative of the banned-word alternation `\b(w1|w2|...)\b` that
matches at the current position (JS alternation tries left to right). -/
def firstHit (pw : Bool) (text : List Char) : List (List Char) → Option (List Char)
  | [] => none
  | w :: ws =>
    if startsWithCI w text && wordEndsOk pw w text then some w
    else firstHit pw text ws

/-- Global replacement of `\b(w1|w2|...)\b` (case-insensitive) by the empty
string: the banned-word removal step of `scrubOutput`.  `pw` tracks the
word-status of the previous character; a zero-length match (an empty banned
word) advances one character, as a JS global replace does. -/
def scrubRemoveFuel (banned : List (List Char)) : Nat → Bool → List Char → List Char
  | _, _, [] => []
  | 0, _, l => l
  | fuel + 1, pw, c :: rest =>
    if pw != isWordChar c then
      match firstHit pw (c :: rest) banned with
      | some (w₀ :: ws) =>
        scrubRemoveFuel banned fuel (lastIsWord pw (w₀ :: ws))
          ((c :: rest).drop (w₀ :: ws).length)
      | some [] => c :: scrubRemoveFuel banned fuel (isWordChar c) rest
      | none => c :: scrubRemoveFuel banned fuel (isWordChar c) rest
    else c :: scrubRemoveFuel banned fuel (isWordChar c) rest

/-- Banned-word removal entry point.  Every recursive step of
`scrubRemoveFuel` shortens the text by at least one character (a matched
alternative is non-empty in the consuming branch), so fuel equal to the
text length is never exhausted: the `0` branch is unreachable from here. -/
def scrubRemoveAux (banned : List (List Char)) (pw : Bool) (text : List Char) : List Char :=
  scrubRemoveFuel banned text.length pw text

/-- Punctuation class of the regex `\s([,.:;!?])`. -/
def isPunct (c : Char) : Bool :=
  c = ',' || c = '.' || c = ':' || c = ';' || c = '!' || c = '?'

/-- Global replacement `text.replace(/\s([,.:;!?])/g, "$1")`: one whitespace
character directly before a punctuation mark is dropped, and scanning resumes
after the punctuation mark (JS global-replace semantics). -/
def dropSpaceBeforePunct : List Char → List Char
  | [] => []
  | [c] => [c]
  | c :: p :: rest =>
    if jsWhitespace c && isPunct p then p :: dropSpaceBeforePunct rest
    else c :: dropSpaceBeforePunct (p :: rest)

/-- Default SIN BIN seed list (`DEFAULT_SIN_BIN` in `server.js`). -/
def DEFAULT_SIN_BIN : List String := ["fundamentals", "here’s the thing"]

/-- Shallow embedding of `scrubOutput(raw, banned)` from `src/server.js`
lines 121-133: replace em-dashes by colons, collapse runs of 2+ spaces,
then (only when the banned list is non-empty) remove whole-word
case-insensitive banned-word matches, collapse spaces again, drop whitespace
before punctuation, and finally trim. -/
def scrubOutput (raw : String) (banned : List String) : String :=
  let t1 := replaceEmDash raw.toList
  let t2 := collapseSpaces t1
  let t3 :=
    if banned.isEmpty then t2
    else
      let t := scrubRemoveAux (banned.map String.toList) false t2
      dropSpaceBeforePunct (collapseSpaces t)
  String.mk (jsTrimL t3)

/-- Exact substring containment, as JavaScript `String.prototype.includes`. -/
def containsSubAux (pat : List Char) : List Char → Bool
  | [] => pat.isEmpty
  | c :: rest => pat.isPrefixOf (c :: rest) || containsSubAux pat rest

/-- JavaScript `s.includes(pat)`. -/
def containsSub (s pat : String) : Bool :=
  containsSubAux pat.toList s.toList

/-- Split on `/\r?\n/` as JavaScript `String.prototype.split` does
(a lone carriage return is not a separator). -/
def splitLinesAux (acc : List Char) : List Char → List (List Char)
  | [] => [acc.reverse]
  | '\r' :: '\n' :: rest => acc.reverse :: splitLinesAux [] rest
  | '\n' :: rest => acc.reverse :: splitLinesAux [] rest
  | c :: rest => splitLinesAux (c :: acc) rest

/-- Lines of a message, per `String(message).split(/\r?\n/)`. -/
def splitLines (s : String) : List String :=
  (splitLinesAux [] s.toList).map String.mk

mutual

/-- Split on runs of whitespace, per JavaScript `m.split(/\s+/)` (a leading
or trailing run produces an empty token, as in JS). -/
def wsTokensGo (acc : List Char) : List Char → List (List Char)
  | [] => [acc.reverse]
  | c :: rest =>
    if jsWhitespace c then acc.reverse :: wsTokensSkip rest
    else wsTokensGo (c :: acc) rest

/-- Consume the rest of a whitespace run, then start the next token. -/
def wsTokensSkip : List Char → List (List Char)
  | [] => [[]]
  | c :: rest =>
    if jsWhitespace c then wsTokensSkip rest
    else wsTokensGo [c] rest

end

/-- Whitespace-separated tokens of a string. -/
def wsTokens (s : String) : List String :=
  (wsTokensGo [] s.toList).map String.mk

/-- Uppercased join of the first two whitespace-separated tokens of the
trimmed message: the `head` local of `detectMode` in `src/server.js`. -/
def headOf (message : String) : String :=
  jsUpper (String.intercalate " " ((wsTokens (jsTrimS message)).take 2))

/-- Fixed mode vocabulary of `detectMode`, in source order. -/
def modeVocab : List String :=
  ["LIGHT EDIT", "EDIT", "REWRITE", "REBUILD", "ASSESS", "ANALYSE",
   "DRAFT", "OUTLINE", "PROMPT", "HOW-TO", "LONGFORM"]

/-- The `m.toUpperCase().startsWith(`MODE: ${mode}`)` test of `detectMode`. -/
def modeLineHit (message : String) (v : String) : Bool :=
  strStarts (jsUpper (jsTrimS message)) ("MODE: " ++ v)

/-- Shallow embedding of `detectMode(message)` from `src/server.js`
lines 135-157: the first vocabulary entry matched by the head tokens or by
an explicit `MODE:` message front is returned, with `HOW-TO` normalised to
`OUTLINE`. -/
def detectMode (message : String) : Option String :=
  (modeVocab.find? (fun v => strStarts (headOf message) v || modeLineHit message v)).map
    (fun v => if v = "HOW-TO" then "OUTLINE" else v)

/-- Commands recognised by `parseCommand` in `src/server.js`. -/
inductive Command where
  | STOP
  | MENU
  | MENU_AGAIN
  | REVIEW_AVATAR
  | SET_AVATAR (payload : String)
  | SET_PROFILE (payload : String)
  | ADD_PROFILE (payload : String)
  | SINBIN_ADD (word : String)
  | SINBIN_REMOVE (word : String)
deriving DecidableEq, Repr

/-- Shallow embedding of `parseCommand(raw)` from `src/server.js`
lines 453-483 (payload slicing offsets as in the source). -/
def parseCommand (raw : String) : Option Command :=
  let msg := jsTrimS raw
  let exact := jsUpper msg
  if exact = "STOP" then some .STOP
  else if exact = "MENU" then some .MENU
  else if exact = "MENU AGAIN" then some .MENU_AGAIN
  else if strStarts exact "REVIEW AVATAR" then some .REVIEW_AVATAR
  else if strStarts exact "AVATAR" then some (.SET_AVATAR (jsTrimS (msg.drop 6)))
  else if strStarts exact "MY PROFILE" then some (.SET_PROFILE (jsTrimS (msg.drop 10)))
  else if strStarts exact "ADD TO MY PROFILE" then some (.ADD_PROFILE (jsTrimS (msg.drop 18)))
  else if strStarts exact "SIN BIN:" then some (.SINBIN_ADD (jsTrimS (msg.drop 8)))
  else if strStarts exact "REMOVE SIN BIN:" then some (.SINBIN_REMOVE (jsTrimS (msg.drop 16)))
  else none

/-- Existence of a whole-word case-insensitive match of one of `banned`
anywhere in the text: `/\b(w1|w2|...)\b/i.test(text)`. -/
def hasHitAux (banned : List (List Char)) : Bool → List Char → Bool
  | _, [] => false
  | pw, c :: rest =>
    ((pw != isWordChar c) && (firstHit pw (c :: rest) banned).isSome)
    || hasHitAux banned (isWordChar c) rest

/-- Case-insensitive whole-word test of a list of words against a string. -/
def hasWordCI (ws : List String) (s : String) : Bool :=
  hasHitAux (ws.map String.toList) false s.toList

/-- Non-whitespace head test (`\S` must match at least once after the
URL scheme). -/
def nonWsHead (l : List Char) : Bool :=
  match l.head? with
  | some c => !jsWhitespace c
  | none => false

/-- Scan for a URL scheme match at any position. -/
def hasUrlAux : List Char → Bool
  | [] => false
  | c :: rest =>
    ("http://".toList.isPrefixOf (c :: rest) && nonWsHead ((c :: rest).drop 7))
    || ("https://".toList.isPrefixOf (c :: rest) && nonWsHead ((c :: rest).drop 8))
    || hasUrlAux rest

/-- Case-insensitive URL test `/https?:\/\/\S+/i.test(m)` used by
`isUnclearBrief` in `src/unnamed/part_002`. -/
def hasUrlCI (s : String) : Bool :=
  hasUrlAux ((jsLower s).toList)

/-- Count of `/\r?\n/` matches in a string (each `\n`, with a preceding
`\r` absorbed, is one match). -/
def newlineCount (s : String) : Nat :=
  s.toList.countP (· = '\n')

/-- Task-intent verbs of the preflight clarity heuristic. -/
def intentWords : List String :=
  ["write", "draft", "rewrite", "rework", "create", "make", "fix",
   "improve", "help", "need", "want"]

/-- Platform/context markers of the preflight clarity heuristic. -/
def contextWords : List String :=
  ["linkedin", "newsletter", "substack", "blog", "article", "website",
   "landing page", "home page", "about page", "email", "dm", "pitch", "bio"]

/-- Shallow embedding of `isUnclearBrief(message)` from
`src/unnamed/part_002` lines 253-272. -/
def isUnclearBrief (message : String) : Bool :=
  let m := jsTrimS message
  if m = "" then true
  else if 220 ≤ m.length then false
  else if 2 ≤ newlineCount m then false
  else if hasUrlCI m then false
  else
    let intent := hasWordCI intentWords m
    let context := hasWordCI contextWords m
    intent && !context && decide (m.length < 140)

/-- Agreement lexicon of `normaliseYesNo`. -/
def yesWords : List String :=
  ["yes", "yeah", "yep", "yup", "right", "correct", "spot on", "exactly",
   "nailed it", "that’s it", "that\u0027s it", "sounds right", "pretty much",
   "mostly", "more or less", "close enough"]

/-- Disagreement lexicon of `normaliseYesNo`. -/
def noWords : List String :=
  ["no", "nah", "nope", "not really", "not quite", "not exactly", "off",
   "wrong", "actually", "sort of", "kind of", "but", "however", "except",
   "instead"]

/-- Shallow embedding of `normaliseYesNo(text)` from `src/unnamed/part_002`
lines 274-322: +2 per agreement substring, -2 per disagreement substring. -/
def normaliseYesNo (text : String) : String :=
  let t := jsLower (jsTrimS text)
  let score : Int :=
    (yesWords.foldl (fun s y => if containsSub t y then s + 2 else s) 0)
    - (noWords.foldl (fun s n => if containsSub t n then s + 2 else s) 0)
  if 2 ≤ score then "YES"
  else if score ≤ -2 then "NO"
  else "UNKNOWN"

/-- Shallow embedding of `inferPrimaryPurpose(message)` from
`src/unnamed/part_002` lines 165-197 (later tests override earlier ones). -/
def inferPrimaryPurpose (message : String) : String :=
  let m := jsLower message
  let p0 := "authority-building"
  let p1 :=
    if hasWordCI ["sell", "selling", "offer", "launch", "book", "buy", "cta",
                  "conversion", "sales page"] m then "sell" else p0
  let p2 :=
    if hasWordCI ["case study", "results", "proof", "experience", "background",
                  "why me"] m then "build trust" else p1
  let p3 :=
    if hasWordCI ["thoughts on", "opinion", "take on", "commentary", "sharing",
                  "my view"] m then "raise profile" else p2
  let p4 :=
    if hasWordCI ["information piece", "explainer", "overview", "guide",
                  "introduction", "basics", "did you know"] m then "educate" else p3
  if hasWordCI ["neutral", "purely informational", "no agenda", "academic"] m
  then "educate" else p4

/-- Global persona/style rules of `src/server.js` (the `GLOBAL_RULES`
template literal, verbatim, leading and trailing newline included). -/
def GLOBAL_RULES : String :=
  "\nLANGUAGE AND FORMATTING\n- Always UK English.\n- Use contractions naturally.\n- Never use an em dash. Replace with colon, comma, or full stop.\n- No emojis. No apology. No filler. No beige language.\n- No bullet symbols. Use hyphens if you must list.\n- Rhythm first: short-first, readable aloud, alternate staccato and roll.\n- Copy must end with punch, not fade.\n\nVOICE\n- Sharp. Certain. Alive.\n- Collaborative phrasing allowed: \"Let’s\", \"We need to\", \"Shall we\" when helpful.\n- Irreverent when it serves clarity, precise when needed.\n- Copy must read like an edit, not like vague encouragement.\n- Active voice by default. Address the reader directly unless instructed otherwise.\n- Avoid \"fundamentals\". It sits in the SIN BIN by default.\n\nSTRUCTURE\n- Internal spine: Problem, Fix, Proof, CTA. Keep it invisible.\n- Every line must earn its place. No padding.\n- Who, What, How must be answered.\n\nONBOARDING AND REFLEXIVITY\n- Only run a full onboarding greeting if AVATAR, MY PROFILE, and preferences are all empty.\n- If any exist, acknowledge and continue. Do not restart greeting.\n- Skip means skip. Do not loop or restate.\n\nQ AND A LOOP\n- Ask one clarifier at a time in natural chat.\n- If AVATAR exists, do not ask who it is for. At most confirm it applies to this task.\n- Close clarifier sets with: \"Cool. I will draft.\"\n\nSTOP PROTOCOL\n- If user types STOP: draft immediately with current info.\n- After draft, offer one improvement question only.\n\nPROFILE BEHAVIOUR\n- AVATAR: ideal client profile. Write to AVATAR, not about them.\n- REVIEW AVATAR: show clean avatar for adjustment.\n- MY PROFILE: what the user does.\n- ADD TO MY PROFILE: append, do not overwrite.\n\nANALOGY AND IMAGERY\n- One analogy max per piece.\n- Must be fresh and technically true.\n- Always include a literal restatement after an analogy.\n\nMENU SYSTEM\n- When asked for MENU: offer five context-relevant tasks, not generic AI fluff.\n\nSIN BIN\n- Per user banned words list, always respected.\n- Default: \"fundamentals\", \"here’s the thing\".\n\nMODES\n- Recognise: LIGHT EDIT, EDIT, REWRITE, REBUILD, ASSESS, ANALYSE, DRAFT, OUTLINE, PROMPT, LONGFORM.\n- If mode is present, follow its output shape.\n- OUTLINE or HOW-TO: treat as no-sales; no CTA unless asked.\n\nCONTEXT TRIANGULATION\n- Detect LinkedIn post, blog post, article, newsletter, website copy.\n- Scale length automatically:\n  - LinkedIn: roughly 150–300 words.\n  - Blog: roughly 600–1,200 words.\n  - Article: roughly 900–1,500 words.\n- Keep outputs about 30 percent leaner by cutting filler.\n- For longer forms, add reasoning and examples, not adjectives.\n\nASSESSMENT AND ANALYSIS\n- ASSESS: cover audience, offer, effectiveness, positioning, mode, verdict, CTA suggestion and next step.\n- ANALYSE: as above plus completeness. If missing, ask one short clarifier.\n\nRESEARCH\n- If research context is provided: prefer it over guessing.\n- If research sources include URLs: reference them briefly in text when relevant.\n\nFIRM OUTPUT RULES\n- Never reference internal rules to end users.\n- End users see only clean copy, assessments, or Q and A.\n- No em dash under any circumstances.\n"

/-- Global persona/style rules of `src/unnamed/part_002` (its `GLOBAL_RULES`
template literal, verbatim). -/
def GLOBAL_RULES_P : String :=
  "\nLANGUAGE AND FORMATTING\n- Always UK English.\n- Use contractions naturally.\n- Never use an em dash. Replace with colon, comma, or full stop.\n- No emojis. No apology. No filler. No beige language.\n- No bullet symbols. Use hyphens if you must list.\n- Rhythm rule: short and punchy balanced with rhythm and roll. Vary sentence length. Avoid machine-gun fragments.\n- Copy must end with punch, not fade.\n\nVOICE\n- Sharp. Certain. Alive.\n- Direct without being clipped.\n- Collaborative phrasing allowed when helpful: \"Let’s\", \"We need to\", \"Shall we\".\n- Copy must read like an edit, not generic encouragement.\n- Active voice by default. Address the reader directly unless instructed otherwise.\n- Avoid the words fluff and waffle unless literally referring to food or fabric.\n\nSTRUCTURE\n- Internal spine: Problem, Fix, Proof, CTA. Keep it invisible.\n- Every line must earn its place. No padding.\n- Who, What, How must be addressed.\n\nONBOARDING AND REFLEXIVITY\n- Run a full onboarding greeting only if AVATAR, MY PROFILE, and preferences are all empty.\n- If any exist, do not restart greeting.\n- Skip means skip. Do not loop or restate.\n\nQ AND A LOOP\n- Ask one clarifier at a time in natural chat.\n- No acknowledgement line like \"cool, I will draft\". Move directly into drafting once the clarifier is answered.\n- If AVATAR exists, do not ask who it is for unless ambiguous. At most confirm it applies to this task.\n\nSTOP PROTOCOL\n- If user types STOP: draft immediately with current info.\n- After draft, offer one improvement question only.\n\nPROFILE BEHAVIOUR\n- AVATAR: ideal client profile. Write to AVATAR.\n- REVIEW AVATAR: show clean avatar for adjustment.\n- MY PROFILE: what the user does.\n- ADD TO MY PROFILE: append, do not overwrite.\n\nADAPTATION RULES\n- Apply client personalisation: reflect the client\u0027s cadence and word choices with roughly seventy percent fidelity.\n- Do not fully adopt or mimic their voice. Maintain the Becky cadence, clarity, and structure while bending toward the client.\n- Respect style brief, tone notes, industry terms, and preferences.\n- Reflect, do not mirror.\n\nANALOGY AND IMAGERY\n- One analogy max per piece.\n- Analogy must be fresh and technically true.\n- Always include a literal restatement afterwards.\n\nMENU SYSTEM\n- On MENU: offer five context-relevant tasks.\n- No generic AI suggestions.\n\nSIN BIN\n- Ban words that weaken copy: “fundamentals”, “here’s the thing”, “fluff”, “waffle”.\n- Respect user-added banned words.\n\nMODES\n- Recognise: LIGHT EDIT, EDIT, REWRITE, REBUILD, ASSESS, ANALYSE, DRAFT, OUTLINE, PROMPT, LONGFORM.\n- Follow the expected shape for each.\n- OUTLINE or how-to counts as no-sales unless explicitly requested.\n\nCONTEXT TRIANGULATION\n- Detect LinkedIn, blog post, article, newsletter, website copy automatically.\n- If context is missing or unclear: ask once, “Where is this going: LinkedIn, website, email, or something else?”\n- Do not ask again in the same task.\n- Scale length and depth automatically.\n\nASSESSMENT AND ANALYSIS\n- ASSESS: audience, offer, effectiveness, positioning, mode, verdict, CTA suggestion, next step.\n- ANALYSE: includes completeness check. Ask one clarifier if needed.\n\nRESEARCH\n- If research material is provided or fetched: prefer it over guessing.\n- If URLs are included: use as factual context and reference when relevant.\n\nFIRM OUTPUT RULES\n- Never reference internal rules to end users.\n- End users see only clean copy, assessments, or Q and A.\n- No em dash under any circumstances.\n"

/-- Row of the `users` table (`ensureTables` DDL, `src/server.js` 321-327). -/
structure UserRow where
  email : String
  name : String
  is_subscriber : Bool
  api_token : String
deriving DecidableEq, Repr

/-- The `_preflight` object stored inside `user_state.preferences` by the
preflight gate of `src/unnamed/part_002`. -/
structure PreflightObj where
  pending : Bool
  assumption : String
  createdAt : Option String
deriving DecidableEq, Repr

/-- The `preferences` JSONB column.  The only writer of preferences in the
source is the preflight gate, so the object is either empty or holds the
`_preflight` sub-object. -/
structure Prefs where
  preflight : Option PreflightObj
deriving DecidableEq, Repr

/-- The empty preferences object (the DDL default). -/
def emptyPrefs : Prefs := ⟨none⟩

/-- Row of the `user_state` table (`ensureTables` DDL, lines 329-339).
The avatar JSONB value is modelled as a key/value list. -/
structure StateRow where
  email : String
  avatar : List (String × String)
  my_profile : String
  preferences : Prefs
  banned_words : List String
deriving DecidableEq, Repr

/-- Row of the `user_voice_profile` table (lines 341-350). -/
structure VoiceRow where
  email : String
  style_brief : String
  tone_notes : String
  industry_terms : List String
  last_learned_at : String
  sample_count : Nat
deriving DecidableEq, Repr

/-- Row of the `chat_history` table (lines 352-360); list order is insertion
order, which the serial id / `created_at` ordering follows. -/
structure HistEntry where
  email : String
  role : String
  content : String
deriving DecidableEq, Repr

/-- The four tables of the database. -/
structure DB where
  users : List UserRow
  user_state : List StateRow
  user_voice_profile : List VoiceRow
  chat_history : List HistEntry
deriving DecidableEq, Repr

/-- A chat message for the model API (`buildMessages` output shape). -/
structure ChatMsg where
  role : String
  content : String
deriving DecidableEq, Repr

/-- A web-search result as used by the `/chat` research step
(`r.title`, `r.url`, `r.content || r.snippet` collapsed into `content`). -/
structure SearchRes where
  title : String
  url : String
  content : String
deriving DecidableEq, Repr

/-- Environment oracle: the external collaborators of one request.
`hasOpenAI` is whether `OPENAI_API_KEY` is configured; `complete` is the
content of `openai.chat.completions.create` for a given message list (`none`
models a null/missing content); `voiceBrief` is the result of
`summariseClientVoice` (an opaque model call); `fetchText` is the result of
`fetchPageText` per URL (`none` models a thrown fetch error); `search` is
the `webSearch` result list; `parseAvatar` models the outcome of
`JSON.parse` on an avatar payload (`none` models a parse exception); `now`
is `new Date().toISOString()`. -/
structure Oracle where
  hasOpenAI : Bool
  complete : List ChatMsg → Option String
  voiceBrief : String → String × String
  fetchText : String → Option String
  search : String → List SearchRes
  parseAvatar : String → Option (List (String × String))
  now : String

/-- Patch argument of `setState` (absent fields leave the column as is;
mirrors the `??` / `typeof` / `Array.isArray` guards of the source). -/
structure StatePatch where
  avatar : Option (List (String × String))
  my_profile : Option String
  preferences : Option Prefs
  banned_words : Option (List String)

/-- Patch that sets only the avatar. -/
def patchAvatar (a : List (String × String)) : StatePatch := ⟨some a, none, none, none⟩

/-- Patch that sets only the profile text. -/
def patchProfile (p : String) : StatePatch := ⟨none, some p, none, none⟩

/-- Patch that sets only the preferences object. -/
def patchPrefs (p : Prefs) : StatePatch := ⟨none, none, some p, none⟩

/-- Patch that sets only the banned-words list. -/
def patchBanned (b : List String) : StatePatch := ⟨none, none, none, some b⟩

/-- Shallow embedding of `getAuthedUser(email, token)` from `src/server.js`
lines 366-376: unknown email, non-subscriber, or token mismatch all yield
`none`. -/
def getAuthedUser (us : List UserRow) (email token : String) : Option UserRow :=
  match us.find? (fun u => u.email = email) with
  | none => none
  | some u =>
    if !u.is_subscriber then none
    else if u.api_token ≠ token then none
    else some u

/-- Point read of `user_state` (`getState`). -/
def getState (db : DB) (email : String) : Option StateRow :=
  db.user_state.find? (fun s => s.email = email)

/-- Point read of `user_voice_profile` (`getVoice`). -/
def getVoice (db : DB) (email : String) : Option VoiceRow :=
  db.user_voice_profile.find? (fun v => v.email = email)

/-- Upsert of a `user_state` row keyed by email (`ON CONFLICT (email) DO
UPDATE SET ...` with every column supplied). -/
def upsertStateRow (l : List StateRow) (row : StateRow) : List StateRow :=
  if l.any (fun s => s.email = row.email) then
    l.map (fun s => if s.email = row.email then row else s)
  else l ++ [row]

/-- Shallow embedding of `setState(email, patch)` from `src/server.js`
lines 386-417: read the current row (defaulting, for a missing row, to the
in-memory default whose banned list is `DEFAULT_SIN_BIN`), overlay the
patch, and upsert.  Returns the written row and the new database, as the
source returns `next`. -/
def setState (db : DB) (email : String) (patch : StatePatch) : StateRow × DB :=
  let current := (db.user_state.find? (fun s => s.email = email)).getD
    { email := email, avatar := [], my_profile := "", preferences := emptyPrefs,
      banned_words := DEFAULT_SIN_BIN }
  let next : StateRow :=
    { email := email
      avatar := patch.avatar.getD current.avatar
      my_profile := patch.my_profile.getD current.my_profile
      preferences := patch.preferences.getD current.preferences
      banned_words := patch.banned_words.getD current.banned_words }
  (next, { db with user_state := upsertStateRow db.user_state next })

/-- Shallow embedding of `insertChatHistory(email, role, content)`. -/
def insertChatHistory (db : DB) (email role content : String) : DB :=
  { db with chat_history := db.chat_history ++ [⟨email, role, content⟩] }

/-- Shallow embedding of `getRecentChatHistory(email, limit)`: the most
recent `limit` turns for the account, in chronological order. -/
def getRecentChatHistory (db : DB) (email : String) (limit : Nat) : List HistEntry :=
  (((db.chat_history.filter (fun h => h.email = email)).reverse.take limit)).reverse

/-- Shallow embedding of `maybeLearnFromChat(email, userMessage)` from
`src/server.js` lines 287-316 (the `summariseClientVoice` model call is the
`voiceBrief` oracle; without a key it yields empty briefs). -/
def maybeLearnFromChat (o : Oracle) (db : DB) (email userMessage : String) : DB :=
  let row := db.user_voice_profile.find? (fun v => v.email = email)
  let shouldLearn := row.isNone || (match row with
    | some r => decide (r.sample_count < 5)
    | none => true)
  if !shouldLearn then db
  else
    let brief := if o.hasOpenAI then o.voiceBrief (userMessage.take 1200) else ("", "")
    match row with
    | none =>
      { db with user_voice_profile :=
          db.user_voice_profile ++ [⟨email, brief.1, brief.2, [], o.now, 1⟩] }
    | some r =>
      let sb :=
        if r.style_brief.length < 2000 then r.style_brief ++ " " ++ brief.1
        else brief.1
      { db with user_voice_profile := db.user_voice_profile.map (fun v =>
          if v.email = email then
            { v with style_brief := sb, tone_notes := brief.2,
                     last_learned_at := o.now, sample_count := v.sample_count + 1 }
          else v) }

/-- Upsert of a `users` row performed by the `checkout.session.completed`
webhook branch and by `/post-checkout`: `ON CONFLICT (email) DO UPDATE SET
is_subscriber=true, name=$2, api_token=$3`. -/
def upsertUserRow (us : List UserRow) (email name token : String) : List UserRow :=
  if us.any (fun u => u.email = email) then
    us.map (fun u =>
      if u.email = email then
        { u with name := name, is_subscriber := true, api_token := token }
      else u)
  else us ++ [{ email := email, name := name, is_subscriber := true, api_token := token }]

/-- The default `user_state` row created by `INSERT INTO user_state (email)
VALUES ($1)`: every other column takes its DDL default, in particular
`banned_words TEXT[] DEFAULT '\x7b\x7d'` is the empty array. -/
def defaultStateRow (email : String) : StateRow :=
  { email := email, avatar := [], my_profile := "", preferences := emptyPrefs,
    banned_words := [] }

/-- `INSERT INTO user_state (email) VALUES ($1) ON CONFLICT (email) DO
NOTHING`. -/
def insertStateDefault (l : List StateRow) (email : String) : List StateRow :=
  if l.any (fun s => s.email = email) then l else l ++ [defaultStateRow email]

/-- Shallow embedding of the `checkout.session.completed` branch of the
Stripe webhook (`src/server.js` lines 568-584, identically in
`src/unnamed/part_002` lines 819-835): upsert the user with a freshly
generated `api_token` (the `Math.random().toString(36).slice(2)` value is
the `token` parameter), then create a default `user_state` row if absent. -/
def checkoutSessionCompleted (db : DB) (email name token : String) : DB :=
  let db1 := { db with users := upsertUserRow db.users email name token }
  { db1 with user_state := insertStateDefault db1.user_state email }

/-- Shallow embedding of the `customer.subscription.deleted` webhook branch. -/
def customerSubscriptionDeleted (db : DB) (email : String) : DB :=
  { db with users := db.users.map (fun u =>
      if u.email = email then { u with is_subscriber := false } else u) }

/-- Rendering of a flat JSON object, modelling `JSON.stringify` for the
avatar/preferences values (string escaping elided; no theorem inspects
these strings). -/
def jsonObjString (kvs : List (String × String)) : String :=
  "\x7b" ++ String.intercalate "," (kvs.map (fun kv => "\"" ++ kv.1 ++ "\":\"" ++ kv.2 ++ "\"")) ++ "\x7d"

/-- Rendering of a `_preflight` object, modelling `JSON.stringify`. -/
def preflightObjString (pf : PreflightObj) : String :=
  "\x7b\"pending\":" ++ (if pf.pending then "true" else "false")
  ++ ",\"assumption\":\"" ++ pf.assumption ++ "\""
  ++ (match pf.createdAt with
      | some t => ",\"createdAt\":\"" ++ t ++ "\""
      | none => "")
  ++ "\x7d"

/-- Rendering of a preferences object, modelling `JSON.stringify`. -/
def prefsString (p : Prefs) : String :=
  match p.preflight with
  | none => "\x7b\x7d"
  | some pf => "\x7b\"_preflight\":" ++ preflightObjString pf ++ "\x7d"

/-- Emptiness of a preferences object (`Object.keys(preferences).length`). -/
def prefsIsEmpty (p : Prefs) : Bool :=
  p.preflight.isNone

/-- The `lines` array pushed by `buildClientBrief(voiceRow, stateRow)`
(`src/server.js` lines 159-193).  The surrounding template literal's
leading and trailing newlines are removed by the source's `.trim()`, so
the trimmed literal is written directly in `buildClientBrief` below. -/
def clientBriefLines (voiceRow : Option VoiceRow) (stateRow : Option StateRow) : List String :=
  let styleBrief := match voiceRow with | some v => v.style_brief | none => ""
  let toneNotes := match voiceRow with | some v => v.tone_notes | none => ""
  let industry := match voiceRow with
    | some v => String.intercalate ", " v.industry_terms
    | none => ""
  let avatar := match stateRow with
    | some s => if s.avatar.isEmpty then "" else jsonObjString s.avatar
    | none => ""
  let myProfile := match stateRow with | some s => s.my_profile | none => ""
  let prefs := match stateRow with
    | some s => if prefsIsEmpty s.preferences then "" else prefsString s.preferences
    | none => ""
  (if styleBrief ≠ "" then ["STYLE BRIEF: " ++ styleBrief] else [])
  ++ (if toneNotes ≠ "" then ["TONE NOTES: " ++ toneNotes] else [])
  ++ (if industry ≠ "" then ["INDUSTRY TERMS: " ++ industry] else [])
  ++ (if avatar ≠ "" then ["AVATAR: " ++ avatar] else [])
  ++ (if myProfile ≠ "" then ["MY PROFILE: " ++ myProfile] else [])
  ++ (if prefs ≠ "" then ["PREFERENCES: " ++ prefs] else [])

/-- Body of `buildClientBrief`: empty when no line was pushed, otherwise
the trimmed template literal around the pushed lines. -/
def buildClientBrief (voiceRow : Option VoiceRow) (stateRow : Option StateRow) : String :=
  if (clientBriefLines voiceRow stateRow).isEmpty then ""
  else
    "CLIENT VOICE BRIEF\n" ++ String.intercalate "\n" (clientBriefLines voiceRow stateRow)
    ++ "\n\nADAPTATION RULES\n- Mirror the client\u0027s cadence and word choices from this brief.\n- Keep UK English and the structure spine.\n- One analogy max, then literalise."

/-- Shallow embedding of `buildMessages({message, systemPrompt, history})`
from `src/server.js` lines 195-205: system prompt, then the last four
history turns (contents capped at 4000 characters), then the new user
message. -/
def buildMessages (message systemPrompt : String) (history : List HistEntry) : List ChatMsg :=
  let safeHistory := ((history.reverse.take 4).reverse).map (fun m =>
    { role := if m.role = "assistant" then "assistant" else "user",
      content := m.content.take 4000 : ChatMsg })
  { role := "system", content := systemPrompt : ChatMsg } :: safeHistory
    ++ [{ role := "user", content := message }]

/-- Banned-word selection of the scrub step (`src/server.js` line 545):
the row's `banned_words` array when a `user_state` row is present, the
default seed only when it is absent. -/
def bannedFor (state : Option StateRow) : List String :=
  match state with
  | some s => s.banned_words
  | none => DEFAULT_SIN_BIN

/-- The `MODE:` prompt block of `processMessageWithContext` (trimmed
template literal). -/
def modeBlockOf (mode : Option String) : String :=
  match mode with
  | some md => "MODE: " ++ md ++ "\n- Follow the " ++ md ++ " output shape.\n- Do not pitch unless asked."
  | none => ""

/-- The no-sales prompt block of `processMessageWithContext` (trimmed
template literal), present when `noSales` is set. -/
def noSalesBlock : String :=
  "NO-SALES SWITCH\n- Outline or how to. Do not include CTAs unless explicitly requested."

/-- The research prompt block of `processMessageWithContext`. -/
def researchBlockOf (researchContext : String) : String :=
  if researchContext = "" then ""
  else jsTrimS ("RESEARCH MATERIAL\nUse this as factual context. Prefer it over guessing.\n\n" ++ researchContext)

/-- The account identification line of `processMessageWithContext`. -/
def nameLineOf (user : UserRow) : String :=
  if user.name ≠ "" then "User: " ++ user.name ++ " <" ++ user.email ++ ">." else ""

/-- Argument record of `processMessageWithContext`. -/
structure PmcArgs where
  message : String
  user : UserRow
  state : Option StateRow
  voice : Option VoiceRow
  mode : Option String
  noSales : Bool
  history : List HistEntry
  researchContext : String

/-- The ordered, `filter(Boolean)`-ed block list joined into the system
prompt by `processMessageWithContext` in `src/server.js` lines 523-532. -/
def pmcBlocks (a : PmcArgs) : List String :=
  [GLOBAL_RULES,
   buildClientBrief a.voice a.state,
   researchBlockOf a.researchContext,
   modeBlockOf a.mode,
   if a.noSales then noSalesBlock else "",
   nameLineOf a.user].filter (fun b => b ≠ "")

/-- The assembled system prompt (`.join("\n\n")`). -/
def pmcSystemPrompt (a : PmcArgs) : String :=
  String.intercalate "\n\n" (pmcBlocks a)

/-- The model reply after the `?.trim() || "I do not have a response yet."`
normalisation of `src/server.js` line 544. -/
def rawModelReply (o : Oracle) (msgs : List ChatMsg) : String :=
  match o.complete msgs with
  | some c => if jsTrimS c ≠ "" then jsTrimS c else "I do not have a response yet."
  | none => "I do not have a response yet."

/-- Shallow embedding of `processMessageWithContext(...)` from
`src/server.js` lines 486-547: with no model client configured the fallback
echo `"Noted. {message}"` is returned directly; otherwise the model reply
is scrubbed against the account's banned words. -/
def processMessageWithContext (o : Oracle) (a : PmcArgs) : String :=
  if !o.hasOpenAI then "Noted. " ++ a.message
  else
    let reply := rawModelReply o (buildMessages a.message (pmcSystemPrompt a) a.history)
    scrubOutput reply (bannedFor a.state)

/-- First-occurrence de-duplication with an explicit seen accumulator. -/
def dedupSeen (seen : List String) : List String → List String
  | [] => []
  | a :: as =>
    if seen.contains a then dedupSeen seen as
    else a :: dedupSeen (a :: seen) as

/-- First-occurrence de-duplication, the effect of `[...new Set(l)]`
(exact string equality, as a JS `Set` uses). -/
def dedupFirst (l : List String) : List String :=
  dedupSeen [] l

mutual

/-- URL extraction `String(message).match(/https?:\/\/\S+/g)` (case
sensitive, each match a maximal run of non-whitespace from the scheme on,
scanning resuming after each match). -/
def extractUrlsGo : List Char → List String
  | [] => []
  | c :: rest =>
    if c = 'h'
       && (("ttp://".toList.isPrefixOf rest && nonWsHead (rest.drop 6))
           || ("ttps://".toList.isPrefixOf rest && nonWsHead (rest.drop 7))) then
      urlConsume [c] rest
    else extractUrlsGo rest

/-- Consume the maximal non-whitespace run of the current match; at the
first whitespace character the match ends and scanning resumes (a
whitespace character can start no match, so resuming past it is the same). -/
def urlConsume (acc : List Char) : List Char → List String
  | [] => [String.mk acc.reverse]
  | c :: rest =>
    if jsWhitespace c then String.mk acc.reverse :: extractUrlsGo rest
    else urlConsume (c :: acc) rest

end

/-- URLs of a message. -/
def extractUrls (message : String) : List String :=
  extractUrlsGo message.toList

/-- The `SOURCE:` snippets collected from fetching each URL of the message
(failed fetches are skipped, as the source catches them). -/
def urlSnippetsOf (o : Oracle) (message : String) : List String :=
  (extractUrls message).foldl (fun acc u =>
    match o.fetchText u with
    | some txt => acc ++ ["SOURCE: " ++ u ++ "\n" ++ txt]
    | none => acc) []

/-- The `RESEARCH:` first-line query (`/^RESEARCH:\s*(.+)$/i`): present when
the first line starts with `RESEARCH:` (case-insensitive) followed by at
least one character; the captured query is trimmed at use. -/
def researchQuery (message : String) : Option String :=
  let firstLine := (splitLines message).headD ""
  if strStarts (jsUpper firstLine) "RESEARCH:" && firstLine.drop 9 ≠ "" then
    some (jsTrimS (firstLine.drop 9))
  else none

/-- Message with a matched `RESEARCH:` first line removed
(`lines.slice(1).join("\n") || message`). -/
def strippedMessageOf (message : String) : String :=
  match researchQuery message with
  | some _ =>
    let rest := String.intercalate "\n" ((splitLines message).drop 1)
    if rest = "" then message else rest
  | none => message

/-- The `SEARCH:` block assembled from web-search results. -/
def searchBlockOf (o : Oracle) (q : String) : String :=
  let snips := (o.search q).enum.map (fun ir =>
    toString (ir.1 + 1) ++ ") " ++ (if ir.2.title = "" then "Result" else ir.2.title)
    ++ " - " ++ ir.2.url ++ "\n" ++ ir.2.content)
  if snips.isEmpty then "" else "SEARCH: " ++ q ++ "\n" ++ String.intercalate "\n\n" snips

/-- The combined research context of the `/chat` research step
(`src/server.js` lines 796-834). -/
def researchContextOf (o : Oracle) (message : String) : String :=
  let fromSearch := match researchQuery message with
    | some q => searchBlockOf o q
    | none => ""
  let snippets := urlSnippetsOf o message
  if snippets.isEmpty then fromSearch
  else if fromSearch = "" then String.intercalate "\n\n" snippets
  else fromSearch ++ "\n\n" ++ String.intercalate "\n\n" snippets

/-- Outcome of a `/chat` request: a JSON reply or an error status. -/
inductive ChatOut where
  | ok (reply : String)
  | fail (status : Nat) (error : String)
deriving DecidableEq, Repr

/-- A `/chat` request body. -/
structure ChatReq where
  email : String
  token : String
  message : String

/-- The fixed 403 error copy of the `/chat` auth gate. -/
def authFailMsg : String :=
  "Hey, it appears we do not know you yet. Either check the email you entered or subscribe for access."

/-- The fixed `MENU` reply. -/
def menuReply : String :=
  "Here are a few things we could roll with.\n- Website about page tune up\n- LinkedIn profile rewrite for clarity\n- Service page sharpen for conversions\n- Landing page quick audit\n- Headline and CTA set\nPick one, or throw me your own."

/-- The fixed `MENU AGAIN` reply (a constant string in the source). -/
def menuAgainReply : String :=
  "Fresh picks:\n- Bio rewrite for trust\n- Short email nurture outline\n- Offer page structure\n- FAQ block in your voice\n- Social post variants (3 to 5)\nWant one of these, or something else?"

/-- Pretty JSON rendering of an avatar, modelling
`JSON.stringify(avatar, null, 2)` in the `REVIEW_AVATAR` handler. -/
def avatarPretty (kvs : List (String × String)) : String :=
  if kvs.isEmpty then "\x7b\x7d"
  else
    "\x7b\n" ++ String.intercalate ",\n" (kvs.map (fun kv =>
      "  \"" ++ kv.1 ++ "\": \"" ++ kv.2 ++ "\"")) ++ "\n\x7d"

/-- Command handling of the `/chat` route of `src/server.js` (lines
721-791), shared verbatim by `src/unnamed/part_002` (lines 1036-1106).
Returns the command reply and the updated database.  The `state` argument
is the current value of the route's `state` variable. -/
def runCommand (o : Oracle) (db : DB) (email : String) (state : Option StateRow)
    (cmd : Command) : String × DB :=
  match cmd with
  | .MENU => (menuReply, db)
  | .MENU_AGAIN => (menuAgainReply, db)
  | .REVIEW_AVATAR =>
    let clean := avatarPretty (match state with | some s => s.avatar | none => [])
    let reply :=
      if clean ≠ "\x7b\x7d" then
        "Current avatar profile:\n" ++ clean ++ "\nAnything you want to tweak?"
      else
        "No avatar is set yet. Tell me who you serve in plain terms and I will store it."
    (reply, db)
  | .SET_AVATAR payload =>
    let avatarObj :=
      if payload = "" then []
      else
        match o.parseAvatar payload with
        | some kvs => kvs
        | none => [("summary", payload)]
    let (_, db) := setState db email (patchAvatar avatarObj)
    ("Avatar noted. I will write to this audience unless you change it.", db)
  | .SET_PROFILE payload =>
    let (_, db) := setState db email (patchProfile payload)
    ("Profile saved.", db)
  | .ADD_PROFILE payload =>
    let combined := jsTrimS ((match state with | some s => s.my_profile | none => "") ++ "\n" ++ payload)
    let (_, db) := setState db email (patchProfile combined)
    ("Added to your profile.", db)
  | .SINBIN_ADD word =>
    let list := bannedFor state
    let next := dedupFirst ((list ++ [word]).filter (fun w => w ≠ ""))
    let (_, db) := setState db email (patchBanned next)
    ("Added to SIN BIN: " ++ word, db)
  | .SINBIN_REMOVE word =>
    let list := bannedFor state
    let next := list.filter (fun w => jsLower w ≠ jsLower word)
    let (_, db) := setState db email (patchBanned next)
    ("Removed from SIN BIN: " ++ word, db)
  | .STOP => ("", db)

/-- The free-text tail of the `/chat` route of `src/server.js` (lines
793-859): research, mode detection, stop handling, recent history, model
call, log, reply.  `message` is the route's (possibly rewritten) message,
`cmd` its parsed command. -/
def chatPipelineTail (o : Oracle) (db : DB) (email : String) (user : UserRow)
    (state : Option StateRow) (voice : Option VoiceRow) (message : String)
    (cmd : Option Command) : ChatOut × DB :=
  let researchContext := researchContextOf o message
  let stripped := strippedMessageOf message
  let mode := detectMode stripped
  let noSales := decide (mode = some "OUTLINE")
  let stopTriggered := decide (cmd = some Command.STOP)
  let finalMessage :=
    if stopTriggered then "Draft now using current context. No clarifiers." else stripped
  let historyRows := getRecentChatHistory db email 4
  let voice := match voice with | some v => some v | none => getVoice db email
  let args : PmcArgs :=
    { message := finalMessage, user := user, state := state, voice := voice,
      mode := mode, noSales := noSales, history := historyRows,
      researchContext := researchContext }
  let reply := processMessageWithContext o args
  (.ok reply, insertChatHistory db email "assistant" reply)

/-- Shallow embedding of the `/chat` route of `src/server.js` (lines
699-867): auth gate, user-turn log, state and voice reads, fire-and-forget
voice learning (modelled synchronously; it touches only the voice table),
command short-circuits, then the free-text tail. -/
def chatHandler (o : Oracle) (db : DB) (req : ChatReq) : ChatOut × DB :=
  match getAuthedUser db.users req.email req.token with
  | none => (.fail 403 authFailMsg, db)
  | some user =>
    let db := insertChatHistory db req.email "user" req.message
    let state := getState db req.email
    let voice := getVoice db req.email
    let db := maybeLearnFromChat o db req.email req.message
    let cmd := parseCommand req.message
    match cmd with
    | some Command.STOP => chatPipelineTail o db req.email user state voice req.message cmd
    | some c =>
      let (reply, db) := runCommand o db req.email state c
      (.ok reply, insertChatHistory db req.email "assistant" reply)
    | none => chatPipelineTail o db req.email user state voice req.message cmd

/-- Shallow embedding of `getPreflightState(state)` from
`src/unnamed/part_002` lines 324-332 (defaults for a missing `_preflight`
object). -/
def getPreflightState (state : Option StateRow) : PreflightObj :=
  match state with
  | some s =>
    match s.preferences.preflight with
    | some pf => pf
    | none => ⟨false, "", none⟩
  | none => ⟨false, "", none⟩

/-- The partial `_preflight` update supplied at a `setPreflightStatePatch`
call site (absent fields keep the existing value, as the object spread
does). -/
structure PreflightPatch where
  pending : Option Bool
  assumption : Option String
  createdAt : Option String

/-- Shallow embedding of `setPreflightStatePatch(state, next)` from
`src/unnamed/part_002` lines 334-343: merge `next` over the existing
`_preflight` object inside the preferences. -/
def setPreflightStatePatch (state : Option StateRow) (next : PreflightPatch) : StatePatch :=
  let existing := getPreflightState state
  patchPrefs ⟨some
    { pending := next.pending.getD existing.pending
      assumption := next.assumption.getD existing.assumption
      createdAt := match next.createdAt with
        | some t => some t
        | none => existing.createdAt }⟩

/-- The fixed clarifier used when no model client is configured, and as the
`||` fallback of `generateWorkingAssumption`. -/
def preflightFallbackReply : String :=
  "So I\u0027m getting you want something written, but the brief is still loose. Am I on the right track?"

/-- The instruction prompt of `generateWorkingAssumption` (trimmed template
literal). -/
def preflightPromptText : String :=
  "You are a UK copy agent. The user has given an unclear brief.\nMake a working assumption in ONE sentence: \"So I\u0027m getting X, aimed at Y, to do Z.\"\nThen ask: \"Am I on the right track?\"\nNo other questions. No lists. No extra commentary."

/-- Shallow embedding of `generateWorkingAssumption({openai, systemPrompt,
userMessage})` from `src/unnamed/part_002` lines 345-363. -/
def generateWorkingAssumption (o : Oracle) (systemPrompt userMessage : String) : String :=
  let msgs : List ChatMsg :=
    [{ role := "system", content := systemPrompt },
     { role := "user", content := preflightPromptText ++ "\n\nUSER INPUT:\n" ++ userMessage.take 1200 }]
  match o.complete msgs with
  | some c => if jsTrimS c ≠ "" then jsTrimS c else preflightFallbackReply
  | none => preflightFallbackReply

/-- The `buildSystemPrompt` lambda the `/chat` route of `src/unnamed/part_002`
passes to `runPreflight` (lines 992-996). -/
def preflightSystemPrompt (user : UserRow) (state : Option StateRow)
    (voice : Option VoiceRow) : String :=
  String.intercalate "\n\n"
    ([GLOBAL_RULES_P, buildClientBrief voice state, nameLineOf user].filter (fun b => b ≠ ""))

/-- Result of `runPreflight`, mirroring its three return shapes. -/
inductive PreflightResult where
  | proceed (statePatch : Option StatePatch)
  | proceedWithBrief (rewrittenMessage : String) (statePatch : StatePatch)
  | shortCircuit (reply : String) (statePatch : StatePatch)

/-- Shallow embedding of `runPreflight(...)` from `src/unnamed/part_002`
lines 372-431.  A pending preflight is always cleared (`pending: false`)
and never yields another short-circuit; an unclear brief from the idle
state short-circuits with a clarifier and persists `pending: true`.  The
stored assumption is the first `/\n+/`-segment of the reply. -/
def runPreflight (o : Oracle) (message : String) (user : UserRow)
    (state : Option StateRow) (voice : Option VoiceRow) : PreflightResult :=
  let m := jsTrimS message
  let pf := getPreflightState state
  if pf.pending then
    if normaliseYesNo m = "YES" then
      .proceed (some (setPreflightStatePatch state ⟨some false, none, none⟩))
    else
      let rewrittenMessage :=
        if pf.assumption ≠ "" then pf.assumption ++ "\n\nUser correction/addition:\n" ++ m
        else m
      .proceedWithBrief rewrittenMessage (setPreflightStatePatch state ⟨some false, none, none⟩)
  else if !isUnclearBrief m then .proceed none
  else if !o.hasOpenAI then
    .shortCircuit preflightFallbackReply
      (setPreflightStatePatch state
        ⟨some true, some "Working assumption: user wants something written but brief is loose.",
         some o.now⟩)
  else
    let systemPrompt := preflightSystemPrompt user state voice
    let reply := generateWorkingAssumption o systemPrompt m
    .shortCircuit reply
      (setPreflightStatePatch state
        ⟨some true, some (String.mk (reply.toList.takeWhile (fun c => c ≠ '\n'))), some o.now⟩)

/-- Suffix of `s` from the first occurrence of `pat` on (`none` when `pat`
does not occur): the `match(/INTENT ASSUMPTION[\s\S]*$/)` extraction. -/
def suffixFromSub (pat : List Char) : List Char → Option (List Char)
  | [] => if pat.isEmpty then some [] else none
  | c :: rest =>
    if pat.isPrefixOf (c :: rest) then some (c :: rest)
    else suffixFromSub pat rest

/-- The `intentBlock` extracted by `processMessageWithContext` in
`src/unnamed/part_002` lines 767-768. -/
def intentBlockOf (message : String) : String :=
  match suffixFromSub "INTENT ASSUMPTION".toList message.toList with
  | some l => String.mk l
  | none => ""

/-- Test for a label followed by `\s*` and one of the alternatives at the
current position (alternatives begin with a non-whitespace character, so
the greedy `\s*` position is the only candidate). -/
def labelAltAt (label : List Char) (alts : List (List Char)) (l : List Char) : Bool :=
  label.isPrefixOf l
  && alts.any (fun a => a.isPrefixOf ((l.drop label.length).dropWhile jsWhitespace))

/-- Scan of `labelAltAt` over every position. -/
def labelAltScan (label : List Char) (alts : List (List Char)) : List Char → Bool
  | [] => false
  | c :: rest => labelAltAt label alts (c :: rest) || labelAltScan label alts rest

/-- Case-insensitive regex test `label\s*(alt1|alt2|...)` anywhere in the
text (labels and alternatives given lowercase). -/
def labelAltTest (text : String) (label : String) (alts : List String) : Bool :=
  labelAltScan label.toList (alts.map String.toList) ((jsLower text).toList)

/-- The structural-requirement block of `buildProblemGuardrail`. -/
def problemGuardText : String :=
  "STRUCTURAL REQUIREMENT\n- If you imply importance, benefit, protection, or action, you must first state the problem, risk, or loss that makes it necessary.\n- Do not move to solutions, benefits, or calls to action without naming what is at stake."

/-- Shallow embedding of `buildProblemGuardrail(intentBlock)` from
`src/unnamed/part_002` lines 434-448. -/
def buildProblemGuardrail (intentBlock : String) : String :=
  if intentBlock = "" then ""
  else if labelAltTest intentBlock "business purpose:"
          ["authority-building", "build trust", "raise profile", "sell"]
        && labelAltTest intentBlock "stance:" ["explanatory-with-implications"] then
    problemGuardText
  else ""

/-- Block list of the `processMessageWithContext` variant of
`src/unnamed/part_002` (lines 730-782), which inserts the problem-first
guardrail derived from the `INTENT ASSUMPTION` block of the message. -/
def pmcBlocksP (a : PmcArgs) : List String :=
  [GLOBAL_RULES_P,
   buildClientBrief a.voice a.state,
   buildProblemGuardrail (intentBlockOf a.message),
   researchBlockOf a.researchContext,
   modeBlockOf a.mode,
   if a.noSales then noSalesBlock else "",
   nameLineOf a.user].filter (fun b => b ≠ "")

/-- Shallow embedding of the `processMessageWithContext` variant of
`src/unnamed/part_002` lines 730-798. -/
def processMessageWithContextP (o : Oracle) (a : PmcArgs) : String :=
  if !o.hasOpenAI then "Noted. " ++ a.message
  else
    let systemPrompt := String.intercalate "\n\n" (pmcBlocksP a)
    let reply := rawModelReply o (buildMessages a.message systemPrompt a.history)
    scrubOutput reply (bannedFor a.state)

/-- Context defaults of the intent-lock step. -/
structure ContextDefaults where
  destination : String
  length : String
  awareness : String
  stance : String

/-- Modelled from the spec: `inferContextDefaults` is called by the
intent-lock step of the `/chat` route in `src/unnamed/part_002` (line 1016)
but is not defined anywhere in the provided sources.  Following the spec's
context-triangulation notes (detect LinkedIn post, blog post, article,
newsletter, website copy; scale length automatically) it is modelled as
keyword-based destination detection with fixed defaults for the remaining
fields.  No settled claim depends on the values it returns. -/
def inferContextDefaults (message : String) : ContextDefaults :=
  let m := jsLower message
  let destination :=
    if containsSub m "linkedin" then "LinkedIn post"
    else if containsSub m "blog" then "blog post"
    else if containsSub m "article" then "article"
    else if containsSub m "newsletter" then "newsletter"
    else if containsSub m "website" then "website copy"
    else "unspecified"
  { destination := destination, length := "scaled to destination",
    awareness := "problem-aware", stance := "explanatory-with-implications" }

/-- The `INTENT ASSUMPTION` note appended to the message by the intent-lock
step of `src/unnamed/part_002` lines 1014-1029 (trimmed template literal). -/
def intentNoteOf (message : String) : String :=
  let purpose := inferPrimaryPurpose message
  let cd := inferContextDefaults message
  "INTENT ASSUMPTION\n- Business purpose: " ++ purpose
  ++ "\n- Destination: " ++ cd.destination
  ++ "\n- Length: " ++ cd.length
  ++ "\n- Audience awareness: " ++ cd.awareness
  ++ "\n- Stance: " ++ cd.stance
  ++ "\n\nProceed on this basis unless corrected."

/-- Greeting words of the `/chat` greeting guard of `src/unnamed/part_002`
(line 978). -/
def greetWords : List String :=
  ["hey", "hi", "hello", "hiya", "yo", "morning", "afternoon", "evening", "you there"]

/-- The greeting test of `src/unnamed/part_002` lines 976-978 on the
trimmed lowercased message: length at most 12 and
`/^(hey|hi|hello|hiya|yo|morning|afternoon|evening|you there)\b/`. -/
def isGreeting (raw : String) : Bool :=
  decide (raw.length ≤ 12) && greetWords.any (fun g =>
    strStarts raw g && !headIsWord (raw.toList.drop g.length))

/-- The fixed greeting reply of `src/unnamed/part_002` line 981. -/
def greetingReply : String := "Alright. What are we working on?"

/-- The free-text tail of the `/chat` route of `src/unnamed/part_002`
(lines 1109-1177), identical to the `src/server.js` tail except for the
`processMessageWithContext` variant with the guardrail block. -/
def chatPipelineTailP (o : Oracle) (db : DB) (email : String) (user : UserRow)
    (state : Option StateRow) (voice : Option VoiceRow) (message : String)
    (cmd : Option Command) : ChatOut × DB :=
  let researchContext := researchContextOf o message
  let stripped := strippedMessageOf message
  let mode := detectMode stripped
  let noSales := decide (mode = some "OUTLINE")
  let stopTriggered := decide (cmd = some Command.STOP)
  let finalMessage :=
    if stopTriggered then "Draft now using current context. No clarifiers." else stripped
  let historyRows := getRecentChatHistory db email 4
  let voice := match voice with | some v => some v | none => getVoice db email
  let args : PmcArgs :=
    { message := finalMessage, user := user, state := state, voice := voice,
      mode := mode, noSales := noSales, history := historyRows,
      researchContext := researchContext }
  let reply := processMessageWithContextP o args
  (.ok reply, insertChatHistory db email "assistant" reply)

/-- Continuation of the `/chat` route of `src/unnamed/part_002` after the
preflight gate (lines 1014-1177): append the intent note, parse the
command, run a command handler or the free-text tail. -/
def chatContinueP (o : Oracle) (db : DB) (email : String) (user : UserRow)
    (state : Option StateRow) (voice : Option VoiceRow) (message : String) : ChatOut × DB :=
  let message := message ++ "\n\n" ++ intentNoteOf message
  let cmd := parseCommand message
  match cmd with
  | some Command.STOP => chatPipelineTailP o db email user state voice message cmd
  | some c =>
    let (reply, db) := runCommand o db email state c
    (.ok reply, insertChatHistory db email "assistant" reply)
  | none => chatPipelineTailP o db email user state voice message cmd

/-- Shallow embedding of the `/chat` route of `src/unnamed/part_002`
(lines 950-1185): auth gate, user-turn log, state and voice reads, voice
learning, greeting guard, preflight gate (with its state patch persisted),
then the intent lock and the shared pipeline. -/
def chatHandlerP (o : Oracle) (db : DB) (req : ChatReq) : ChatOut × DB :=
  match getAuthedUser db.users req.email req.token with
  | none => (.fail 403 authFailMsg, db)
  | some user =>
    let db := insertChatHistory db req.email "user" req.message
    let state := getState db req.email
    let voice := getVoice db req.email
    let db := maybeLearnFromChat o db req.email req.message
    let raw := jsLower (jsTrimS req.message)
    if isGreeting raw then
      (.ok greetingReply, insertChatHistory db req.email "assistant" greetingReply)
    else
      match runPreflight o req.message user state voice with
      | .shortCircuit reply patch =>
        let (_, db) := setState db req.email patch
        (.ok reply, insertChatHistory db req.email "assistant" reply)
      | .proceed patchOpt =>
        match patchOpt with
        | some patch =>
          let (row, db) := setState db req.email patch
          chatContinueP o db req.email user (some row) voice req.message
        | none => chatContinueP o db req.email user state voice req.message
      | .proceedWithBrief rewritten patch =>
        let (row, db) := setState db req.email patch
        chatContinueP o db req.email user (some row) voice rewritten

/-! ### Concrete fixtures used by witnesses and counterexamples -/

/-- Oracle for an environment with no model key, no research collaborators.
The timestamp is an arbitrary fixed instant. -/
def oracleNone : Oracle :=
  ⟨false, fun _ => none, fun _ => ("", ""), fun _ => none, fun _ => [],
   fun _ => none, "2026-01-01T00:00:00.000Z"⟩

/-- Oracle whose model call always returns the given completion. -/
def oracleEcho (reply : String) : Oracle :=
  { oracleNone with hasOpenAI := true, complete := fun _ => some reply }

/-- A provisioned subscriber. -/
def aliceRow : UserRow := ⟨"alice@example.com", "Alice", true, "tok1"⟩

/-- Database with one subscriber and their default (freshly provisioned)
state row. -/
def dbAlice : DB := ⟨[aliceRow], [defaultStateRow "alice@example.com"], [], []⟩

/-- Database with one subscriber whose preflight marker is pending. -/
def dbAlicePending : DB :=
  ⟨[aliceRow],
   [{ defaultStateRow "alice@example.com" with
      preferences := ⟨some ⟨true, "Working assumption A.", some "t0"⟩⟩ }],
   [], []⟩

/-- A request authenticated as the fixture subscriber. -/
def reqAlice (m : String) : ChatReq := ⟨"alice@example.com", "tok1", m⟩

/-! ### Helper lemmas -/

/-- Chat-history appends do not touch `user_state`. -/
theorem getState_insertChatHistory (db : DB) (e r c e' : String) :
    getState (insertChatHistory db e r c) e' = getState db e' := rfl

/-- Passive voice learning touches only the voice table. -/
theorem user_state_maybeLearn (o : Oracle) (db : DB) (e m : String) :
    (maybeLearnFromChat o db e m).user_state = db.user_state := by
  unfold maybeLearnFromChat
  dsimp only
  split
  · rfl
  · split <;> rfl

/-- Passive voice learning does not change `getState`. -/
theorem getState_maybeLearn (o : Oracle) (db : DB) (e m e' : String) :
    getState (maybeLearnFromChat o db e m) e' = getState db e' := by
  unfold getState
  rw [user_state_maybeLearn]

/-- Passive voice learning does not touch the users table. -/
theorem users_maybeLearn (o : Oracle) (db : DB) (e m : String) :
    (maybeLearnFromChat o db e m).users = db.users := by
  unfold maybeLearnFromChat
  dsimp only
  split
  · rfl
  · split <;> rfl

/-- Chat-history appends do not touch the users table. -/
theorem users_insertChatHistory (db : DB) (e r c : String) :
    (insertChatHistory db e r c).users = db.users := rfl

/-- `setState` touches only `user_state`. -/
theorem users_setState (db : DB) (e : String) (p : StatePatch) :
    ((setState db e p).2).users = db.users := rfl

/-- Command handlers do not touch the users table. -/
theorem users_runCommand (o : Oracle) (db : DB) (e : String)
    (st : Option StateRow) (c : Command) :
    ((runCommand o db e st c).2).users = db.users := by
  cases c <;> rfl

/-- The free-text pipeline tail does not touch the users table. -/
theorem users_chatPipelineTail (o : Oracle) (db : DB) (e : String) (u : UserRow)
    (st : Option StateRow) (v : Option VoiceRow) (m : String) (c : Option Command) :
    ((chatPipelineTail o db e u st v m c).2).users = db.users := rfl

/-- A `/chat` request never writes the users table. -/
theorem users_chatHandler (o : Oracle) (db : DB) (req : ChatReq) :
    ((chatHandler o db req).2).users = db.users := by
  unfold chatHandler
  cases hA : getAuthedUser db.users req.email req.token with
  | none => rfl
  | some u =>
    dsimp only
    cases hC : parseCommand req.message with
    | none =>
      rw [users_chatPipelineTail, users_maybeLearn, users_insertChatHistory]
    | some c =>
      cases c <;>
        simp only [users_chatPipelineTail, users_insertChatHistory,
          users_runCommand, users_maybeLearn]

/-- Lookup in a mapped list where exactly the matching rows are replaced. -/
theorem find?_map_replace (l : List StateRow) (row : StateRow)
    (h : l.any (fun s => s.email = row.email) = true) :
    (l.map (fun s => if s.email = row.email then row else s)).find?
      (fun s => s.email = row.email) = some row := by
  induction l with
  | nil => simp at h
  | cons a as ih =>
    by_cases ha : a.email = row.email
    · simp [List.find?_cons, ha]
    · have has : as.any (fun s => s.email = row.email) = true := by
        simpa [List.any_cons, ha] using h
      simp only [List.map_cons, if_neg ha]
      rw [List.find?_cons_of_neg _ (by simpa using ha)]
      exact ih has

/-- Lookup in an appended list whose front has no matching row. -/
theorem find?_append_new (l : List StateRow) (row : StateRow)
    (h : l.any (fun s => s.email = row.email) = false) :
    (l ++ [row]).find? (fun s => s.email = row.email) = some row := by
  induction l with
  | nil => simp [List.find?_cons]
  | cons a as ih =>
    have ha : ¬(a.email = row.email) := by
      intro hc
      simp [List.any_cons, hc] at h
    have has : as.any (fun s => s.email = row.email) = false := by
      simpa [List.any_cons, ha] using h
    rw [List.cons_append, List.find?_cons_of_neg _ (by simpa using ha)]
    exact ih has

/-- Lookup after a keyed `user_state` upsert finds the written row. -/
theorem find?_upsertStateRow (l : List StateRow) (row : StateRow) :
    (upsertStateRow l row).find? (fun s => s.email = row.email) = some row := by
  unfold upsertStateRow
  split
  · exact find?_map_replace l row (by assumption)
  · exact find?_append_new l row (by rename_i h; simpa using h)

/-- Keyed variant of `find?_upsertStateRow`. -/
theorem find?_upsertStateRow_key (l : List StateRow) (row : StateRow) (e : String)
    (he : row.email = e) :
    (upsertStateRow l row).find? (fun s => s.email = e) = some row :=
  he ▸ find?_upsertStateRow l row

/-- `getState` after `setState` returns the row `setState` returned. -/
theorem getState_setState (db : DB) (e : String) (p : StatePatch) :
    getState ((setState db e p).2) e = some (setState db e p).1 := by
  unfold getState setState
  dsimp only
  exact find?_upsertStateRow_key db.user_state _ e rfl

/-- The free-text pipeline tail does not touch `user_state`. -/
theorem getState_chatPipelineTail (o : Oracle) (db : DB) (e : String) (u : UserRow)
    (st : Option StateRow) (v : Option VoiceRow) (m : String) (c : Option Command)
    (e' : String) :
    getState ((chatPipelineTail o db e u st v m c).2) e' = getState db e' := rfl

/-- The users table of a checkout event is the keyed upsert. -/
theorem users_checkout (db : DB) (e n t : String) :
    (checkoutSessionCompleted db e n t).users = upsertUserRow db.users e n t := rfl

/-- Lookup in an appended list whose front has no satisfying element. -/
theorem find?_append_right_of_none {α : Type} (l : List α) (p : α → Bool) (b : α)
    (h : ∀ a ∈ l, p a = false) (hb : p b = true) :
    (l ++ [b]).find? p = some b := by
  induction l with
  | nil => simp [List.find?_cons, hb]
  | cons a as ih =>
    rw [List.cons_append,
      List.find?_cons_of_neg _ (by simp [h a (List.mem_cons_self a as)])]
    exact ih (fun x hx => h x (List.mem_cons_of_mem a hx))

/-- Filter length is unchanged by the users-upsert map (the update keeps
the email key). -/
theorem filter_map_upsert_length (us : List UserRow) (e n t : String) :
    ((us.map (fun u => if u.email = e then
        { u with name := n, is_subscriber := true, api_token := t } else u)).filter
      (fun u => u.email = e)).length
      = (us.filter (fun u => u.email = e)).length := by
  induction us with
  | nil => rfl
  | cons a as ih =>
    by_cases ha : a.email = e <;> simp [List.filter_cons, ha, ih]

/-- Token stored by the users upsert: always the freshly supplied one. -/
theorem find?_upsertUser_token (us : List UserRow) (e n t : String) :
    ((upsertUserRow us e n t).find? (fun u => u.email = e)).map (fun u => u.api_token)
      = some t := by
  unfold upsertUserRow
  split
  · rename_i hAny
    induction us with
    | nil => simp at hAny
    | cons a as ih =>
      by_cases ha : a.email = e
      · rw [List.map_cons, if_pos ha, List.find?_cons_of_pos _ (by simpa using ha)]
        simp
      · have has : as.any (fun u => u.email = e) = true := by
          simpa [List.any_cons, ha] using hAny
        rw [List.map_cons, if_neg ha, List.find?_cons_of_neg _ (by simpa using ha)]
        exact ih has
  · rename_i hAny
    rw [find?_append_right_of_none us _ _
      (fun a hmem => by
        by_contra hc
        exact hAny (List.any_eq_true.mpr
          ⟨a, hmem, by simpa using Bool.of_not_eq_false hc⟩))
      (by simp)]
    rfl

/-- Row count for an email after the users upsert, given the primary-key
invariant (at most one row per email). -/
theorem filter_upsertUser_length (us : List UserRow) (e n t : String)
    (h : (us.filter (fun u => u.email = e)).length ≤ 1) :
    ((upsertUserRow us e n t).filter (fun u => u.email = e)).length = 1 := by
  unfold upsertUserRow
  split
  · rename_i hAny
    rw [filter_map_upsert_length]
    rcases List.any_eq_true.mp hAny with ⟨a, hmem, hp⟩
    have hmem2 : a ∈ us.filter (fun u => u.email = e) :=
      List.mem_filter.mpr ⟨hmem, hp⟩
    have h1 : 1 ≤ (us.filter (fun u => u.email = e)).length :=
      List.length_pos.mpr (List.ne_nil_of_mem hmem2)
    omega
  · rename_i hAny
    have hnil : us.filter (fun u => u.email = e) = [] := by
      apply List.filter_eq_nil_iff.mpr
      intro a hmem hc
      exact hAny (List.any_eq_true.mpr ⟨a, hmem, hc⟩)
    rw [List.filter_append, hnil]
    simp

/-- Exact first-occurrence de-duplication count with a seen accumulator. -/
theorem dedupSeen_count (a : String) :
    ∀ (l seen : List String),
      (dedupSeen seen l).count a = if a ∈ l ∧ ¬ a ∈ seen then 1 else 0 := by
  intro l
  induction l with
  | nil => intro seen; simp [dedupSeen]
  | cons b bs ih =>
    intro seen
    unfold dedupSeen
    by_cases hb : seen.contains b
    · rw [if_pos hb, ih seen]
      have hbmem : b ∈ seen := by simpa using hb
      by_cases hab : a = b
      · subst hab
        simp [hbmem]
      · simp [List.mem_cons, hab]
    · rw [if_neg hb]
      have hbmem : ¬ b ∈ seen := by simpa using hb
      rw [List.count_cons, ih (b :: seen)]
      by_cases hab : a = b
      · subst hab
        simp [hbmem, List.mem_cons]
      · simp [List.mem_cons, hab, Ne.symm hab]

/-- A `[...new Set(..)]` list holds each of its members exactly once. -/
theorem dedupFirst_count (l : List String) (a : String) :
    (dedupFirst l).count a = if a ∈ l then 1 else 0 := by
  unfold dedupFirst
  rw [dedupSeen_count a l []]
  simp

/-! ### Claim theorems -/

/-- Claim C4 (confirmed): the authentication gate is side-effect free on
failure.  For every request whose email is unknown, whose account is not a
subscriber, or whose bearer token mismatches, the `/chat` handler returns
status 403 with the fixed error copy and the database is returned
untouched: no ConversationLog append, no UserState creation or mutation. -/
theorem c4_auth_gate_purity (o : Oracle) (db : DB) (req : ChatReq)
    (h : db.users.find? (fun u => u.email = req.email) = none
       ∨ ∃ u, db.users.find? (fun u => u.email = req.email) = some u
           ∧ (u.is_subscriber = false ∨ u.api_token ≠ req.token)) :
    chatHandler o db req = (ChatOut.fail 403 authFailMsg, db) := by
  have hA : getAuthedUser db.users req.email req.token = none := by
    unfold getAuthedUser
    rcases h with h | ⟨u, hu, hcase⟩
    · rw [h]
    · rw [hu]
      rcases hcase with hs | ht
      · simp [hs]
      · cases hsub : u.is_subscriber <;> simp [hsub, ht]
  unfold chatHandler
  rw [hA]

/-- Claim C4 witness: a wrong token against the fixture subscriber. -/
theorem c4_auth_gate_purity_witness :
    chatHandler oracleNone dbAlice ⟨"alice@example.com", "wrong", "hello"⟩
      = (ChatOut.fail 403 authFailMsg, dbAlice) :=
  c4_auth_gate_purity _ _ _
    (Or.inr ⟨aliceRow, by decide, Or.inr (by decide)⟩)

/-- Claim C1 counterexample: replaying the same checkout-completed event
generates and stores a fresh bearer token; after the first application the
token is `"token1"`, after the replay it is `"token2"`, so the token stored
by the first application is not preserved by the second. -/
theorem c1_event_idempotency_counterexample :
    (((checkoutSessionCompleted (⟨[], [], [], []⟩ : DB) "bob@example.com" "Bob" "token1").users.find?
        (fun u => u.email = "bob@example.com")).map (fun u => u.api_token) = some "token1")
    ∧ (((checkoutSessionCompleted (checkoutSessionCompleted (⟨[], [], [], []⟩ : DB) "bob@example.com" "Bob" "token1")
          "bob@example.com" "Bob" "token2").users.find?
        (fun u => u.email = "bob@example.com")).map (fun u => u.api_token) = some "token2")
    ∧ ("token2" ≠ "token1") := by
  refine ⟨by decide, by decide, by decide⟩

/-- Claim C1 amended: replaying the same checkout-completed event still
yields exactly one Account row for the email (keyed upsert), but the
`api_token` column is overwritten with the freshly generated token on every
application; an existing token is not preserved. -/
theorem c1_event_idempotency_amended (db : DB) (e n t₁ t₂ : String)
    (h : (db.users.filter (fun u => u.email = e)).length ≤ 1) :
    (((checkoutSessionCompleted (checkoutSessionCompleted db e n t₁) e n t₂).users.filter
        (fun u => u.email = e)).length = 1)
    ∧ (((checkoutSessionCompleted (checkoutSessionCompleted db e n t₁) e n t₂).users.find?
        (fun u => u.email = e)).map (fun u => u.api_token) = some t₂) := by
  constructor
  · rw [users_checkout, users_checkout]
    exact filter_upsertUser_length _ e n t₂
      (le_of_eq (filter_upsertUser_length db.users e n t₁ h))
  · rw [users_checkout, users_checkout]
    exact find?_upsertUser_token _ e n t₂

/-- Claim C1 amended witness: concrete replay over the empty database. -/
theorem c1_event_idempotency_amended_witness :
    (((checkoutSessionCompleted (checkoutSessionCompleted (⟨[], [], [], []⟩ : DB) "bob@example.com" "Bob" "token1")
        "bob@example.com" "Bob" "token2").users.filter
        (fun u => u.email = "bob@example.com")).length = 1)
    ∧ (((checkoutSessionCompleted (checkoutSessionCompleted (⟨[], [], [], []⟩ : DB) "bob@example.com" "Bob" "token1")
        "bob@example.com" "Bob" "token2").users.find?
        (fun u => u.email = "bob@example.com")).map (fun u => u.api_token) = some "token2") :=
  c1_event_idempotency_amended ⟨[], [], [], []⟩ "bob@example.com" "Bob" "token1" "token2"
    (by decide)

/-- Claim C7 counterexample: two consecutive `MENU AGAIN` commands return
the identical reply, not non-identical subsets; the handler's reply is a
constant string with no randomness. -/
theorem c7_menu_again_counterexample :
    ((chatHandler oracleNone dbAlice (reqAlice "MENU AGAIN")).1 = ChatOut.ok menuAgainReply)
    ∧ ((chatHandler oracleNone ((chatHandler oracleNone dbAlice (reqAlice "MENU AGAIN")).2)
        (reqAlice "MENU AGAIN")).1 = ChatOut.ok menuAgainReply) := by
  refine ⟨by decide, by decide⟩

/-- Claim C7 amended: the `MENU AGAIN` handler returns the fixed canned
list every time, so two consecutive `MENU AGAIN` commands for the same
account return identical (never fresh or random) suggestion lists. -/
theorem c7_menu_again_amended (o : Oracle) (db : DB) (req : ChatReq) (u : UserRow)
    (hA : getAuthedUser db.users req.email req.token = some u)
    (hC : parseCommand req.message = some Command.MENU_AGAIN) :
    ((chatHandler o db req).1 = ChatOut.ok menuAgainReply)
    ∧ ((chatHandler o ((chatHandler o db req).2) req).1 = ChatOut.ok menuAgainReply) := by
  have key : ∀ db' : DB, getAuthedUser db'.users req.email req.token = some u →
      (chatHandler o db' req).1 = ChatOut.ok menuAgainReply := by
    intro db' hA'
    unfold chatHandler
    rw [hA']
    dsimp only
    rw [hC]
    rfl
  have h2 : getAuthedUser ((chatHandler o db req).2).users req.email req.token = some u := by
    rw [users_chatHandler]
    exact hA
  exact ⟨key db hA, key _ h2⟩

/-- Claim C7 amended witness: concrete consecutive runs. -/
theorem c7_menu_again_amended_witness :
    ((chatHandler oracleNone dbAlice (reqAlice "MENU AGAIN")).1 = ChatOut.ok menuAgainReply)
    ∧ ((chatHandler oracleNone ((chatHandler oracleNone dbAlice (reqAlice "MENU AGAIN")).2)
        (reqAlice "MENU AGAIN")).1 = ChatOut.ok menuAgainReply) :=
  c7_menu_again_amended oracleNone dbAlice (reqAlice "MENU AGAIN") aliceRow
    (by decide) (by decide)

/-- Claim C2 counterexample: with no model credential the fallback echo is
returned verbatim, em-dash included — it is not scrub-post-processed (the
scrub of the same text would differ). -/
theorem c2_scrub_fallback_counterexample :
    (processMessageWithContext oracleNone
        ⟨"a—b", aliceRow, getState dbAlice "alice@example.com", none, none, false, [], ""⟩
      = "Noted. a—b")
    ∧ ("Noted. a—b".toList.contains '—' = true)
    ∧ (scrubOutput "Noted. a—b" [] ≠ "Noted. a—b") := by
  refine ⟨by decide, by decide, by decide⟩

/-- Claim C2 amended: the scrub post-processing is applied to every
model-generated reply, but the deterministic no-credential fallback
`"Noted. {message}"` is returned verbatim, without scrubbing. -/
theorem c2_scrub_fallback_amended :
    (∀ (o : Oracle) (a : PmcArgs), o.hasOpenAI = false →
      processMessageWithContext o a = "Noted. " ++ a.message)
    ∧ (∀ (o : Oracle) (a : PmcArgs), o.hasOpenAI = true →
      processMessageWithContext o a =
        scrubOutput (rawModelReply o (buildMessages a.message (pmcSystemPrompt a) a.history))
          (bannedFor a.state)) := by
  constructor <;> intro o a h <;> simp [processMessageWithContext, h]

/-- Claim C2 amended witness: both branches at concrete arguments. -/
theorem c2_scrub_fallback_amended_witness :
    (processMessageWithContext oracleNone
        ⟨"hello", aliceRow, none, none, none, false, [], ""⟩ = "Noted. " ++ "hello")
    ∧ (processMessageWithContext (oracleEcho "x—y")
        ⟨"hello", aliceRow, none, none, none, false, [], ""⟩ =
      scrubOutput (rawModelReply (oracleEcho "x—y")
        (buildMessages "hello"
          (pmcSystemPrompt ⟨"hello", aliceRow, none, none, none, false, [], ""⟩) []))
        (bannedFor none)) :=
  ⟨c2_scrub_fallback_amended.1 oracleNone _ rfl,
   c2_scrub_fallback_amended.2 (oracleEcho "x—y") _ rfl⟩

/-- Claim C9 counterexample: a freshly provisioned account's `user_state`
row is created with an empty `banned_words` array (the DDL default), not
the two-entry seed, so a generated reply keeps the seed word
`fundamentals`. -/
theorem c9_banned_default_counterexample :
    ((getState (checkoutSessionCompleted (⟨[], [], [], []⟩ : DB) "bob@example.com" "Bob" "token1")
        "bob@example.com").map (fun s => s.banned_words) = some [])
    ∧ (processMessageWithContext (oracleEcho "Master the fundamentals daily")
        ⟨"write", ⟨"bob@example.com", "Bob", true, "token1"⟩,
         getState (checkoutSessionCompleted (⟨[], [], [], []⟩ : DB) "bob@example.com" "Bob" "token1")
           "bob@example.com",
         none, none, false, [], ""⟩ = "Master the fundamentals daily")
    ∧ (scrubOutput "Master the fundamentals daily" DEFAULT_SIN_BIN ≠ "Master the fundamentals daily") := by
  refine ⟨by decide, by decide, by decide⟩

/-- Claim C9 amended: the scrub uses the `user_state` row's `banned_words`
array whenever the row exists — even when it is empty — and falls back to
the two-entry default seed only when no row exists; provisioning creates
the row with an empty array, so no seed is in effect for fresh accounts. -/
theorem c9_banned_default_amended :
    (∀ (db : DB) (e n t : String), getState db e = none →
      (getState (checkoutSessionCompleted db e n t) e).map (fun s => s.banned_words)
        = some [])
    ∧ (∀ (o : Oracle) (a : PmcArgs) (row : StateRow),
        o.hasOpenAI = true → a.state = some row →
        processMessageWithContext o a =
          scrubOutput (rawModelReply o (buildMessages a.message (pmcSystemPrompt a) a.history))
            row.banned_words)
    ∧ (∀ (o : Oracle) (a : PmcArgs), o.hasOpenAI = true → a.state = none →
        processMessageWithContext o a =
          scrubOutput (rawModelReply o (buildMessages a.message (pmcSystemPrompt a) a.history))
            DEFAULT_SIN_BIN) := by
  refine ⟨?_, ?_, ?_⟩
  · intro db e n t hnone
    unfold getState at hnone ⊢
    unfold checkoutSessionCompleted insertStateDefault
    dsimp only
    have hAny : db.user_state.any (fun s => s.email = e) = false := by
      by_contra hc
      rcases List.any_eq_true.mp (Bool.of_not_eq_false hc) with ⟨a, hmem, hp⟩
      have := List.find?_eq_none.mp hnone a hmem
      exact this hp
    rw [if_neg (by simp [hAny])]
    rw [find?_append_right_of_none _ _ _
      (fun a hmem => by
        by_contra hc
        exact (List.find?_eq_none.mp hnone a hmem) (Bool.of_not_eq_false hc))
      (by simp [defaultStateRow])]
    rfl
  · intro o a row h hrow
    simp [processMessageWithContext, h, bannedFor, hrow]
  · intro o a h hrow
    simp [processMessageWithContext, h, bannedFor, hrow]

/-- Claim C9 amended witness: all three parts at concrete arguments. -/
theorem c9_banned_default_amended_witness :
    ((getState (checkoutSessionCompleted (⟨[], [], [], []⟩ : DB) "bob@example.com" "Bob" "token1")
        "bob@example.com").map (fun s => s.banned_words) = some [])
    ∧ (processMessageWithContext (oracleEcho "hi")
        ⟨"m", aliceRow, some (defaultStateRow "alice@example.com"), none, none, false, [], ""⟩ =
      scrubOutput (rawModelReply (oracleEcho "hi")
          (buildMessages "m"
            (pmcSystemPrompt ⟨"m", aliceRow, some (defaultStateRow "alice@example.com"),
              none, none, false, [], ""⟩) []))
        (defaultStateRow "alice@example.com").banned_words)
    ∧ (processMessageWithContext (oracleEcho "hi")
        ⟨"m", aliceRow, none, none, none, false, [], ""⟩ =
      scrubOutput (rawModelReply (oracleEcho "hi")
          (buildMessages "m"
            (pmcSystemPrompt ⟨"m", aliceRow, none, none, none, false, [], ""⟩) []))
        DEFAULT_SIN_BIN) :=
  ⟨c9_banned_default_amended.1 ⟨[], [], [], []⟩ "bob@example.com" "Bob" "token1" (by decide),
   c9_banned_default_amended.2.1 (oracleEcho "hi") _ _ rfl rfl,
   c9_banned_default_amended.2.2 (oracleEcho "hi") _ rfl rfl⟩

/-- Claim C5 counterexample: the SIN BIN add command de-duplicates by a JS
`Set`, which compares exact strings; replaying the command with the case
flipped leaves two entries matching `foo` case-insensitively, not one. -/
theorem c5_sinbin_counterexample :
    ((getState ((chatHandler oracleNone
          ((chatHandler oracleNone dbAlice (reqAlice "SIN BIN: foo")).2)
          (reqAlice "SIN BIN: FOO")).2) "alice@example.com").map
        (fun s => s.banned_words) = some ["foo", "FOO"])
    ∧ (["foo", "FOO"].countP (fun x => jsLower x = jsLower "foo") ≠ 1) := by
  refine ⟨by decide, by decide⟩

/-- Claim C5 amended: the SIN BIN add command de-duplicates by exact string
equality.  Executing `SIN BIN: <w>` leaves exactly one exact copy of `w` in
the persisted banned list, and replaying the identical command is
idempotent (still exactly one copy); occurrences differing only in letter
case are distinct entries. -/
theorem c5_sinbin_amended (o : Oracle) (db : DB) (req : ChatReq) (u : UserRow) (w : String)
    (hA : getAuthedUser db.users req.email req.token = some u)
    (hC : parseCommand req.message = some (Command.SINBIN_ADD w))
    (hw : w ≠ "") :
    ((getState ((chatHandler o db req).2) req.email).map
        (fun s => s.banned_words.count w) = some 1)
    ∧ ((getState ((chatHandler o ((chatHandler o db req).2) req).2) req.email).map
        (fun s => s.banned_words.count w) = some 1) := by
  have key : ∀ db' : DB, getAuthedUser db'.users req.email req.token = some u →
      (getState ((chatHandler o db' req).2) req.email).map
        (fun s => s.banned_words.count w) = some 1 := by
    intro db' hA'
    unfold chatHandler
    rw [hA']
    dsimp only
    rw [hC]
    dsimp only
    unfold runCommand
    dsimp only
    rw [getState_insertChatHistory, getState_setState]
    dsimp only [setState, patchBanned, Option.map, Option.getD]
    rw [dedupFirst_count]
    rw [if_pos (List.mem_filter.mpr
      ⟨List.mem_append.mpr (Or.inr (List.mem_singleton.mpr rfl)), by simp [hw]⟩)]
  have h2 : getAuthedUser ((chatHandler o db req).2).users req.email req.token = some u := by
    rw [users_chatHandler]
    exact hA
  exact ⟨key db hA, key _ h2⟩

/-- Claim C5 amended witness: concrete replay of `SIN BIN: foo`. -/
theorem c5_sinbin_amended_witness :
    ((getState ((chatHandler oracleNone dbAlice (reqAlice "SIN BIN: foo")).2)
        "alice@example.com").map (fun s => s.banned_words.count "foo") = some 1)
    ∧ ((getState ((chatHandler oracleNone
          ((chatHandler oracleNone dbAlice (reqAlice "SIN BIN: foo")).2)
          (reqAlice "SIN BIN: foo")).2) "alice@example.com").map
        (fun s => s.banned_words.count "foo") = some 1) :=
  c5_sinbin_amended oracleNone dbAlice (reqAlice "SIN BIN: foo") aliceRow "foo"
    (by decide) (by decide) (by decide)

/-- `find?` only depends on the predicate's values on the list. -/
theorem findCongr {α : Type} (p q : α → Bool) (l : List α)
    (h : ∀ a ∈ l, p a = q a) : l.find? p = l.find? q := by
  induction l with
  | nil => rfl
  | cons a as ih =>
    by_cases hp : p a = true
    · rw [List.find?_cons_of_pos _ hp,
        List.find?_cons_of_pos _ (by rw [← h a (List.mem_cons_self a as)]; exact hp)]
    · rw [List.find?_cons_of_neg _ hp,
        List.find?_cons_of_neg _ (by rw [← h a (List.mem_cons_self a as)]; exact hp),
        ih (fun x hx => h x (List.mem_cons_of_mem a hx))]

/-- Dropping a predicate from a list that ends in a non-satisfying element
keeps that last element. -/
theorem dropWhile_concat_of_neg {α : Type} (p : α → Bool) (xs : List α) (c : α)
    (hc : p c = false) :
    (xs ++ [c]).dropWhile p = xs.dropWhile p ++ [c] := by
  induction xs with
  | nil => simp [List.dropWhile_cons, hc]
  | cons a as ih =>
    by_cases ha : p a = true <;> simp [List.dropWhile_cons, ha, ih]

/-- A JS trim of a string starting with a non-whitespace character keeps
that first character. -/
theorem jsTrimL_head (c : Char) (l : List Char) (hc : jsWhitespace c = false) :
    (jsTrimL (c :: l)).head? = some c := by
  unfold jsTrimL
  rw [List.dropWhile_cons, if_neg (by simp [hc]), List.reverse_cons,
    dropWhile_concat_of_neg _ _ _ hc, List.head?_reverse]
  exact List.getLast?_concat _

/-- Strings with different first characters differ. -/
theorem strHeadNe (s t : String) (c₁ c₂ : Char)
    (h1 : s.toList.head? = some c₁) (h2 : t.toList.head? = some c₂)
    (hne : c₁ ≠ c₂) : s ≠ t := by
  intro he
  rw [he, h2] at h1
  exact hne (by simpa using h1.symm)

/-- The trim of a string whose constant front starts with a non-whitespace
character keeps that character at the front, whatever is appended. -/
theorem jsTrimS_append_head (pre post : String) (c : Char)
    (hpre : pre.toList.head? = some c) (hc : jsWhitespace c = false) :
    (jsTrimS (pre ++ post)).toList.head? = some c := by
  have hd : (pre ++ post).toList = pre.toList ++ post.toList := rfl
  cases hp : pre.toList with
  | nil => rw [hp] at hpre; simp at hpre
  | cons c' l' =>
    rw [hp] at hpre
    have hcc : c' = c := by simpa using hpre
    subst hcc
    show (jsTrimL (pre ++ post).toList).head? = some c'
    rw [hd, hp]
    exact jsTrimL_head c' _ hc

/-- The global rules block is not the no-sales block. -/
theorem global_rules_ne_noSales : GLOBAL_RULES ≠ noSalesBlock := by decide

/-- The client voice brief is never the no-sales block. -/
theorem clientBrief_ne_noSales (v : Option VoiceRow) (s : Option StateRow) :
    buildClientBrief v s ≠ noSalesBlock := by
  unfold buildClientBrief
  by_cases hl : (clientBriefLines v s).isEmpty
  · rw [if_pos hl]
    decide
  · rw [if_neg hl]
    exact strHeadNe _ _ 'C' 'N' rfl rfl (by decide)

/-- The research block is never the no-sales block. -/
theorem researchBlock_ne_noSales (ctx : String) :
    researchBlockOf ctx ≠ noSalesBlock := by
  unfold researchBlockOf
  split
  · decide
  · exact strHeadNe _ _ 'R' 'N'
      (jsTrimS_append_head _ ctx 'R' rfl (by decide)) rfl (by decide)

/-- The mode block is never the no-sales block. -/
theorem modeBlock_ne_noSales (m : Option String) :
    modeBlockOf m ≠ noSalesBlock := by
  unfold modeBlockOf
  cases m with
  | none => decide
  | some md => exact strHeadNe _ _ 'M' 'N' rfl rfl (by decide)

/-- The name line is never the no-sales block. -/
theorem nameLine_ne_noSales (u : UserRow) :
    nameLineOf u ≠ noSalesBlock := by
  unfold nameLineOf
  split
  · exact strHeadNe _ _ 'U' 'N' rfl rfl (by decide)
  · decide

/-- The no-sales block sits in the assembled block list exactly when the
`noSales` flag is set. -/
theorem noSales_mem_pmcBlocks (a : PmcArgs) :
    noSalesBlock ∈ pmcBlocks a ↔ a.noSales = true := by
  unfold pmcBlocks
  rw [List.mem_filter]
  constructor
  · rintro ⟨hmem, -⟩
    simp only [List.mem_cons, List.not_mem_nil, or_false] at hmem
    rcases hmem with h | h | h | h | h | h
    · exact absurd h.symm global_rules_ne_noSales
    · exact absurd h.symm (clientBrief_ne_noSales a.voice a.state)
    · exact absurd h.symm (researchBlock_ne_noSales a.researchContext)
    · exact absurd h.symm (modeBlock_ne_noSales a.mode)
    · cases hns : a.noSales
      · rw [hns] at h
        exact absurd h (by decide)
      · rfl
    · exact absurd h.symm (nameLine_ne_noSales a.user)
  · intro hns
    refine ⟨?_, by decide⟩
    rw [hns]
    simp [List.mem_cons]

/-- Claim C8 (confirmed): mode detection.  (1) `"REWRITE this paragraph:"`
messages detect `REWRITE`; (2) a `"MODE: OUTLINE"` first line detects
`OUTLINE`; (3) `HOW-TO` is normalised to `OUTLINE` and (4) `HOW-TO` itself
is never returned (so, the codomain being an `Option`, at most one mode is
yielded per message); (5) the detection depends only on the uppercased
first-two-token head and on the `MODE: <NAME>` message-front tests over the
fixed vocabulary; (6) the no-sales block is in the assembled prompt block
list exactly when the `noSales` flag is set, and (7) with the `/chat`
wiring `noSales := (mode == "OUTLINE")` the block is present exactly when
the detected mode is `OUTLINE`. -/
theorem c8_mode_detection :
    (detectMode "REWRITE this paragraph: tighten the intro" = some "REWRITE")
    ∧ (detectMode "MODE: OUTLINE\nplan a post about pricing" = some "OUTLINE")
    ∧ (detectMode "HOW-TO choose a niche" = some "OUTLINE")
    ∧ (∀ m : String, detectMode m ≠ some "HOW-TO")
    ∧ (∀ m₁ m₂ : String, headOf m₁ = headOf m₂ →
        (∀ v ∈ modeVocab, modeLineHit m₁ v = modeLineHit m₂ v) →
        detectMode m₁ = detectMode m₂)
    ∧ (∀ a : PmcArgs, noSalesBlock ∈ pmcBlocks a ↔ a.noSales = true)
    ∧ (∀ (m msg : String) (user : UserRow) (st : Option StateRow)
        (voice : Option VoiceRow) (hist : List HistEntry) (rc : String),
        noSalesBlock ∈ pmcBlocks
          ⟨msg, user, st, voice, detectMode m,
           decide (detectMode m = some "OUTLINE"), hist, rc⟩
          ↔ detectMode m = some "OUTLINE") := by
  refine ⟨by decide, by decide, by decide, ?_, ?_, noSales_mem_pmcBlocks, ?_⟩
  · intro m h
    unfold detectMode at h
    cases hf : modeVocab.find?
        (fun v => strStarts (headOf m) v || modeLineHit m v) with
    | none => rw [hf] at h; simp at h
    | some v =>
      rw [hf] at h
      simp only [Option.map_some'] at h
      have hv := Option.some.inj h
      by_cases hvh : v = "HOW-TO"
      · rw [if_pos hvh] at hv
        exact absurd hv (by decide)
      · rw [if_neg hvh] at hv
        exact hvh hv
  · intro m₁ m₂ h1 h2
    unfold detectMode
    rw [findCongr _ _ modeVocab (fun v hv => by rw [h1, h2 v hv])]
  · intro m msg user st voice hist rc
    rw [noSales_mem_pmcBlocks]
    simp

/-- Claim C8 witness: the hypothesis-bearing conjuncts at concrete
arguments. -/
theorem c8_mode_detection_witness :
    (detectMode "DRAFT a post about tea" = detectMode "DRAFT a post about beer")
    ∧ (detectMode "LONGFORM essay" ≠ some "HOW-TO")
    ∧ (noSalesBlock ∈ pmcBlocks
        ⟨"m", aliceRow, none, none, detectMode "MODE: OUTLINE\nx",
         decide (detectMode "MODE: OUTLINE\nx" = some "OUTLINE"), [], ""⟩
        ↔ detectMode "MODE: OUTLINE\nx" = some "OUTLINE") :=
  ⟨c8_mode_detection.2.2.2.2.1 "DRAFT a post about tea" "DRAFT a post about beer"
      (by decide) (by decide),
   c8_mode_detection.2.2.2.1 "LONGFORM essay",
   c8_mode_detection.2.2.2.2.2.2 "MODE: OUTLINE\nx" "m" aliceRow none none [] ""⟩

/-- Em-dash replacement leaves no em-dash behind. -/
theorem replaceEmDash_no_dash (l : List Char) :
    ∀ c ∈ replaceEmDash l, c ≠ '—' := by
  intro c hc hd
  rcases List.mem_map.mp hc with ⟨x, -, hx⟩
  subst hd
  by_cases hx2 : x = '—'
  · rw [if_pos hx2] at hx
    exact absurd hx (by decide)
  · rw [if_neg hx2] at hx
    exact hx2 hx

/-- Em-dash replacement is the identity on dash-free text. -/
theorem replaceEmDash_id (l : List Char) (h : ∀ c ∈ l, c ≠ '—') :
    replaceEmDash l = l := by
  unfold replaceEmDash
  have hcong : ∀ c ∈ l, (if c = '—' then ':' else c) = id c := by
    intro c hc
    rw [if_neg (h c hc)]
    rfl
  rw [List.map_congr_left hcong, List.map_id]

/-- Space collapsing only drops characters. -/
theorem collapseSpaces_mem (l : List Char) :
    ∀ c ∈ collapseSpaces l, c ∈ l := by
  induction l using collapseSpaces.induct with
  | case1 => simp [collapseSpaces]
  | case2 a => simp [collapseSpaces]
  | case3 c₁ c₂ rest h ih =>
    intro c hc
    rw [collapseSpaces, if_pos h] at hc
    exact List.mem_cons_of_mem _ (ih c hc)
  | case4 c₁ c₂ rest h ih =>
    intro c hc
    rw [collapseSpaces, if_neg h] at hc
    rcases List.mem_cons.mp hc with hc | hc
    · exact hc ▸ List.mem_cons_self _ _
    · exact List.mem_cons_of_mem _ (ih c hc)

/-- Trimming only drops characters. -/
theorem jsTrimL_mem (l : List Char) : ∀ c ∈ jsTrimL l, c ∈ l := by
  intro c hc
  unfold jsTrimL at hc
  rw [List.mem_reverse] at hc
  have h1 := (List.dropWhile_suffix jsWhitespace).subset hc
  rw [List.mem_reverse] at h1
  exact (List.dropWhile_suffix jsWhitespace).subset h1

/-- The head survives space collapsing. -/
theorem collapseSpaces_head (x : Char) (xs : List Char) :
    (collapseSpaces (x :: xs)).head? = some x := by
  induction xs generalizing x with
  | nil => rfl
  | cons y ys ih =>
    by_cases h : x = ' ' && y = ' '
    · rw [collapseSpaces, if_pos h]
      have hx : x = ' ' := by simp at h; exact h.1
      have hy : y = ' ' := by simp at h; exact h.2
      rw [ih y, hy, hx]
    · rw [collapseSpaces, if_neg h]
      rfl

/-- A list without adjacent spaces keeps the property on its tail. -/
theorem noDbl_tail (a : Char) (l : List Char) (h : noDbl (a :: l) = true) :
    noDbl l = true := by
  cases l with
  | nil => rfl
  | cons b r =>
    rw [noDbl] at h
    exact (Bool.and_eq_true_iff.mp h).2

/-- Space collapsing yields no adjacent spaces. -/
theorem collapseSpaces_noDbl (l : List Char) : noDbl (collapseSpaces l) = true := by
  induction l using collapseSpaces.induct with
  | case1 => rfl
  | case2 a => rfl
  | case3 c₁ c₂ rest h ih =>
    rw [collapseSpaces, if_pos h]
    exact ih
  | case4 c₁ c₂ rest h ih =>
    rw [collapseSpaces, if_neg h]
    cases hz : collapseSpaces (c₂ :: rest) with
    | nil => rfl
    | cons zh zt =>
      have hzh : zh = c₂ := by
        have := collapseSpaces_head c₂ rest
        rw [hz] at this
        simpa using this
      rw [noDbl, Bool.and_eq_true_iff]
      constructor
      · subst hzh
        simp only [Bool.not_eq_true] at h
        rw [h]
        rfl
      · rw [← hz]
        exact ih

/-- Space collapsing is the identity on lists without adjacent spaces. -/
theorem collapseSpaces_id (l : List Char) (h : noDbl l = true) :
    collapseSpaces l = l := by
  induction l using collapseSpaces.induct with
  | case1 => rfl
  | case2 a => rfl
  | case3 c₁ c₂ rest hcond ih =>
    rw [noDbl] at h
    rw [Bool.and_eq_true_iff] at h
    rw [hcond] at h
    simp at h
  | case4 c₁ c₂ rest hcond ih =>
    rw [collapseSpaces, if_neg hcond]
    rw [ih (noDbl_tail c₁ _ h)]

/-- `noDbl` decomposition at a cons cell. -/
theorem noDbl_cons (x : Char) (l : List Char) :
    noDbl (x :: l)
      = ((match l.head? with
          | some y => !(x = ' ' && y = ' ')
          | none => true) && noDbl l) := by
  cases l with
  | nil => rfl
  | cons y ys => rfl

/-- `noDbl` over an appended last element. -/
theorem noDbl_concat (xs : List Char) (a : Char) :
    noDbl (xs ++ [a])
      = (noDbl xs && (match xs.getLast? with
          | some b => !(b = ' ' && a = ' ')
          | none => true)) := by
  induction xs with
  | nil => rfl
  | cons x xs ih =>
    cases xs with
    | nil =>
      cases hx : decide (x = ' ') <;> cases ha : decide (a = ' ') <;>
        simp_all [noDbl]
    | cons y ys =>
      rw [List.cons_append, noDbl_cons, noDbl_cons x (y :: ys), ih,
        List.getLast?_cons_cons]
      cases hh : (y :: ys ++ [a]).head? <;>
        cases hh2 : (y :: ys : List Char).head? <;>
        simp_all [Bool.and_assoc]

/-- `noDbl` is reversal-invariant (adjacency is symmetric). -/
theorem noDbl_reverse (l : List Char) : noDbl l.reverse = noDbl l := by
  induction l with
  | nil => rfl
  | cons x xs ih =>
    rw [List.reverse_cons, noDbl_concat, ih, noDbl_cons, List.getLast?_reverse]
    cases hh : xs.head? with
    | none => simp
    | some y =>
      by_cases hx : x = ' ' <;> by_cases hy : y = ' ' <;>
        simp [hx, hy, Bool.and_comm]

/-- `noDbl` is preserved by a front `dropWhile`. -/
theorem noDbl_dropWhile (p : Char → Bool) (l : List Char) (h : noDbl l = true) :
    noDbl (l.dropWhile p) = true := by
  induction l with
  | nil => rfl
  | cons a as ih =>
    rw [List.dropWhile_cons]
    split
    · exact ih (noDbl_tail a as h)
    · exact h

/-- `noDbl` is preserved by trimming. -/
theorem noDbl_jsTrimL (l : List Char) (h : noDbl l = true) :
    noDbl (jsTrimL l) = true := by
  unfold jsTrimL
  rw [noDbl_reverse]
  exact noDbl_dropWhile _ _ (by rw [noDbl_reverse]; exact noDbl_dropWhile _ _ h)

/-- The head of a non-empty `dropWhile` result fails the predicate. -/
theorem dropWhile_head_false {α : Type} (p : α → Bool) (l : List α) (c : α)
    (t : List α) (h : l.dropWhile p = c :: t) : p c = false := by
  induction l with
  | nil => simp at h
  | cons a as ih =>
    rw [List.dropWhile_cons] at h
    split at h
    · exact ih h
    · rename_i hpa
      injection h with h1 _
      subst h1
      simpa using hpa

/-- Trimming is idempotent. -/
theorem jsTrimL_idem (l : List Char) : jsTrimL (jsTrimL l) = jsTrimL l := by
  have hT : ∀ x : List Char,
      jsTrimL x = List.rdropWhile jsWhitespace (x.dropWhile jsWhitespace) := by
    intro x
    simp [jsTrimL, List.rdropWhile]
  rw [hT, hT]
  have h1 : List.dropWhile jsWhitespace
      (List.rdropWhile jsWhitespace (l.dropWhile jsWhitespace))
      = List.rdropWhile jsWhitespace (l.dropWhile jsWhitespace) := by
    cases hr : List.rdropWhile jsWhitespace (l.dropWhile jsWhitespace) with
    | nil => rfl
    | cons c t =>
      rcases List.rdropWhile_prefix jsWhitespace (l.dropWhile jsWhitespace) with
        ⟨rest, hrest⟩
      rw [hr] at hrest
      have hd : l.dropWhile jsWhitespace = c :: (t ++ rest) := by
        rw [← hrest]
        rfl
      have hc : jsWhitespace c = false := dropWhile_head_false _ l c _ hd
      rw [List.dropWhile_cons, if_neg (by simp [hc])]
  rw [h1, List.rdropWhile_idempotent]

/-- Claim C6 counterexample: `scrubOutput` is not idempotent in general.
With a non-empty banned list, the whitespace-before-punctuation pass skips
over the position right after a replacement, so a second application can
contract further: `scrub "a \t." ["b"] = "a ."` but scrubbing again gives
`"a."`. -/
theorem c6_scrub_idem_counterexample :
    (scrubOutput "a \t." ["b"] = "a .")
    ∧ (scrubOutput (scrubOutput "a \t." ["b"]) ["b"] = "a.")
    ∧ ("a." ≠ "a .") := by
  refine ⟨by decide, by decide, by decide⟩

/-- Claim C6 amended: `scrubOutput` is a deterministic pure text transform
independent of any model call; the specification example behaves as stated
(`scrub "This—really—works" ["really"] = "This::works"`), and with an
empty banned list a second application is a fixed point.  With a non-empty
banned list a second application can still contract whitespace before
punctuation, so full idempotence fails (see the counterexample). -/
theorem c6_scrub_determinism_amended :
    (scrubOutput "This—really—works" ["really"] = "This::works")
    ∧ (∀ raw : String, scrubOutput (scrubOutput raw []) [] = scrubOutput raw []) := by
  constructor
  · decide
  · intro raw
    have hempty : ∀ s : String,
        scrubOutput s [] = String.mk (jsTrimL (collapseSpaces (replaceEmDash s.toList))) :=
      fun s => rfl
    rw [hempty, hempty]
    have h1 : (String.mk (jsTrimL (collapseSpaces (replaceEmDash raw.toList)))).toList
        = jsTrimL (collapseSpaces (replaceEmDash raw.toList)) := rfl
    rw [h1]
    have hmem : ∀ c ∈ jsTrimL (collapseSpaces (replaceEmDash raw.toList)), c ≠ '—' := by
      intro c hc
      exact replaceEmDash_no_dash _ c
        (collapseSpaces_mem _ c (jsTrimL_mem _ c hc))
    rw [replaceEmDash_id _ hmem,
      collapseSpaces_id _ (noDbl_jsTrimL _ (collapseSpaces_noDbl _)),
      jsTrimL_idem]

/-- Claim C6 amended witness: the fixed-point conjunct at a concrete
input. -/
theorem c6_scrub_determinism_amended_witness :
    scrubOutput (scrubOutput "  a—b  c " []) [] = scrubOutput "  a—b  c " [] :=
  c6_scrub_determinism_amended.2 "  a—b  c "

/-- Chat-history appends do not touch `user_state` (projection form). -/
theorem user_state_insertChatHistory (db : DB) (e r c : String) :
    (insertChatHistory db e r c).user_state = db.user_state := rfl

/-- The part_002 pipeline tail does not touch `user_state`. -/
theorem getState_chatPipelineTailP (o : Oracle) (db : DB) (e : String) (u : UserRow)
    (st : Option StateRow) (v : Option VoiceRow) (m : String) (c : Option Command)
    (e' : String) :
    getState ((chatPipelineTailP o db e u st v m c).2) e' = getState db e' := rfl

/-- A `setState` whose patch leaves preferences absent preserves the stored
preferences of an existing row. -/
theorem setState_prefs_none (db : DB) (e : String) (patch : StatePatch) (row : StateRow)
    (hrow : getState db e = some row) (hp : patch.preferences = none) :
    ((getState ((setState db e patch).2) e).map (fun s => s.preferences))
      = some row.preferences := by
  rw [getState_setState]
  have hfind : db.user_state.find? (fun s => s.email = e) = some row := hrow
  simp only [setState, hfind, hp, Option.getD_some, Option.map_some']
  rfl

/-- Every command handler preserves the stored preferences of an existing
row (mutating commands patch other columns only). -/
theorem runCommand_prefs (o : Oracle) (db : DB) (e : String) (st : Option StateRow)
    (c : Command) (row : StateRow) (hrow : getState db e = some row) :
    ((getState ((runCommand o db e st c).2) e).map (fun s => s.preferences))
      = some row.preferences := by
  cases c with
  | MENU => simpa [runCommand] using congrArg (Option.map (fun s => s.preferences)) hrow
  | MENU_AGAIN => simpa [runCommand] using congrArg (Option.map (fun s => s.preferences)) hrow
  | REVIEW_AVATAR => simpa [runCommand] using congrArg (Option.map (fun s => s.preferences)) hrow
  | STOP => simpa [runCommand] using congrArg (Option.map (fun s => s.preferences)) hrow
  | SET_AVATAR p =>
    unfold runCommand
    exact setState_prefs_none db e _ row hrow rfl
  | SET_PROFILE p =>
    unfold runCommand
    exact setState_prefs_none db e _ row hrow rfl
  | ADD_PROFILE p =>
    unfold runCommand
    exact setState_prefs_none db e _ row hrow rfl
  | SINBIN_ADD w =>
    unfold runCommand
    exact setState_prefs_none db e _ row hrow rfl
  | SINBIN_REMOVE w =>
    unfold runCommand
    exact setState_prefs_none db e _ row hrow rfl

/-- The post-preflight continuation of the part_002 `/chat` route preserves
the stored preferences of an existing row, whatever the message parses to. -/
theorem chatContinueP_prefs (o : Oracle) (db : DB) (e : String) (u : UserRow)
    (st : Option StateRow) (v : Option VoiceRow) (m : String) (row : StateRow)
    (hrow : getState db e = some row) :
    ((getState ((chatContinueP o db e u st v m).2) e).map (fun s => s.preferences))
      = some row.preferences := by
  unfold chatContinueP
  dsimp only
  cases hC : parseCommand (m ++ "\n\n" ++ intentNoteOf m) with
  | none =>
    rw [getState_chatPipelineTailP]
    rw [hrow]
    rfl
  | some c =>
    cases c <;>
      first
      | (rw [getState_chatPipelineTailP, hrow]; rfl)
      | (rw [getState_insertChatHistory]
         exact runCommand_prefs o db e st _ row hrow)

/-- When the option carries preferences `p`, `getPreflightState` is the
`_preflight` member of `p` (with the default for a missing member). -/
theorem getPreflightState_eq_of_map (ost : Option StateRow) (p : Prefs)
    (h : ost.map (fun s => s.preferences) = some p) :
    getPreflightState ost
      = (match p.preflight with | some pf => pf | none => ⟨false, "", none⟩) := by
  cases ost with
  | none => exact Option.noConfusion h
  | some s =>
    have hs : s.preferences = p := by simpa using h
    rw [show getPreflightState (some s)
        = (match s.preferences.preflight with | some pf => pf | none => ⟨false, "", none⟩)
      from rfl, hs]

/-- A pending preflight marker reduces `runPreflight` to the YES/NO fork:
both outcomes carry the `pending: false` patch, and neither is a
short-circuit. -/
theorem runPreflight_pending (o : Oracle) (m : String) (u : UserRow)
    (st : Option StateRow) (v : Option VoiceRow)
    (hp : (getPreflightState st).pending = true) :
    runPreflight o m u st v =
      (if normaliseYesNo (jsTrimS m) = "YES" then
        PreflightResult.proceed (some (setPreflightStatePatch st ⟨some false, none, none⟩))
      else
        PreflightResult.proceedWithBrief
          (if (getPreflightState st).assumption ≠ "" then
            (getPreflightState st).assumption ++ "\n\nUser correction/addition:\n" ++ jsTrimS m
          else jsTrimS m)
          (setPreflightStatePatch st ⟨some false, none, none⟩)) := by
  unfold runPreflight
  dsimp only
  rw [hp]
  rfl

/-- After a `setState` whose patch carries preferences `p`, the
continuation leaves the stored `_preflight` object equal to the member of
`p`. -/
theorem pending_after_continue (o : Oracle) (db : DB) (e : String) (u : UserRow)
    (v : Option VoiceRow) (m : String) (patch : StatePatch) (p : Prefs)
    (hpp : patch.preferences = some p) :
    getPreflightState (getState ((chatContinueP o (setState db e patch).2 e u
        (some (setState db e patch).1) v m).2) e)
      = (match p.preflight with | some pf => pf | none => ⟨false, "", none⟩) := by
  have h2 := chatContinueP_prefs o (setState db e patch).2 e u
    (some (setState db e patch).1) v m (setState db e patch).1 (getState_setState db e patch)
  have hpref : ((setState db e patch).1).preferences = p := by
    dsimp only [setState]
    rw [hpp]
    rfl
  rw [hpref] at h2
  exact getPreflightState_eq_of_map _ _ h2

/-- Claim C3 counterexample: "whatever the content of the account's next
chat message, handling that message clears the pending marker" fails.
With the marker pending, the next message `"hi"` hits the greeting guard,
which runs before the preflight gate: the reply is the greeting constant
and the pending marker is still set afterwards. -/
theorem c3_preflight_counterexample :
    (getPreflightState (getState dbAlicePending "alice@example.com")).pending = true
    ∧ ((chatHandlerP oracleNone dbAlicePending (reqAlice "hi")).1 = ChatOut.ok greetingReply)
    ∧ ((getPreflightState (getState ((chatHandlerP oracleNone dbAlicePending (reqAlice "hi")).2)
          "alice@example.com")).pending = true) := by
  refine ⟨by decide, by decide, by decide⟩

/-- Claim C3 (corrected): the preflight gate never loops, but the
"next message" guarantee needs a non-greeting next message, and the fixed
clarifier shape is guaranteed only on the no-model path.  (1) A pending
marker never yields another short-circuit from `runPreflight`.  (2) For an
authenticated next message that is not a greeting, handling it clears the
pending marker.  (3) From the idle state, an unclear brief with no model
client configured replies with the fixed clarifier ending in "Am I on the
right track?" and persists the pending marker. -/
theorem c3_preflight_amended :
    (∀ (o : Oracle) (m : String) (u : UserRow) (st : Option StateRow) (v : Option VoiceRow),
        (getPreflightState st).pending = true →
        ∀ (r : String) (p : StatePatch),
          runPreflight o m u st v ≠ PreflightResult.shortCircuit r p)
    ∧
    (∀ (o : Oracle) (db : DB) (req : ChatReq) (u : UserRow),
        getAuthedUser db.users req.email req.token = some u →
        isGreeting (jsLower (jsTrimS req.message)) = false →
        (getPreflightState (getState db req.email)).pending = true →
        (getPreflightState (getState ((chatHandlerP o db req).2) req.email)).pending = false)
    ∧
    (∀ (o : Oracle) (db : DB) (req : ChatReq) (u : UserRow),
        getAuthedUser db.users req.email req.token = some u →
        isGreeting (jsLower (jsTrimS req.message)) = false →
        (getPreflightState (getState db req.email)).pending = false →
        isUnclearBrief (jsTrimS req.message) = true →
        o.hasOpenAI = false →
        (chatHandlerP o db req).1 = ChatOut.ok preflightFallbackReply
        ∧ strEnds preflightFallbackReply "Am I on the right track?" = true
        ∧ (getPreflightState (getState ((chatHandlerP o db req).2) req.email)).pending = true) := by
  refine ⟨?_, ?_, ?_⟩
  · intro o m u st v hp r p hcontra
    rw [runPreflight_pending o m u st v hp] at hcontra
    by_cases hy : normaliseYesNo (jsTrimS m) = "YES"
    · rw [if_pos hy] at hcontra
      exact PreflightResult.noConfusion hcontra
    · rw [if_neg hy] at hcontra
      exact PreflightResult.noConfusion hcontra
  · intro o db req u hA hG hp
    unfold chatHandlerP
    rw [hA]
    dsimp only
    rw [hG, if_neg (by decide : ¬(false = true))]
    simp only [getState_insertChatHistory]
    rw [runPreflight_pending o req.message u (getState db req.email) _ hp]
    by_cases hy : normaliseYesNo (jsTrimS req.message) = "YES"
    · rw [if_pos hy]
      dsimp only
      rw [pending_after_continue o _ req.email u _ req.message _
        ⟨some ⟨false, (getPreflightState (getState db req.email)).assumption,
          (getPreflightState (getState db req.email)).createdAt⟩⟩ rfl]
    · rw [if_neg hy]
      dsimp only
      rw [pending_after_continue o _ req.email u _ _ _
        ⟨some ⟨false, (getPreflightState (getState db req.email)).assumption,
          (getPreflightState (getState db req.email)).createdAt⟩⟩ rfl]
  · intro o db req u hA hG hp hU ho
    unfold chatHandlerP
    rw [hA]
    dsimp only
    rw [hG, if_neg (by decide : ¬(false = true))]
    simp only [getState_insertChatHistory]
    have hrun : runPreflight o req.message u (getState db req.email)
        (getVoice (insertChatHistory db req.email "user" req.message) req.email)
      = PreflightResult.shortCircuit preflightFallbackReply
          (setPreflightStatePatch (getState db req.email)
            ⟨some true,
             some "Working assumption: user wants something written but brief is loose.",
             some o.now⟩) := by
      unfold runPreflight
      dsimp only
      rw [hp, if_neg (by decide : ¬(false = true)), hU,
        if_neg (by decide : ¬((!true) = true)), ho, if_pos (by decide : (!false) = true)]
    rw [hrun]
    dsimp only
    refine ⟨rfl, by decide, ?_⟩
    rw [getState_insertChatHistory, getState_setState]
    rfl

/-- Claim C3 witness: on the pending fixture, the non-greeting next
message `"looks good"` clears the marker; on the fresh fixture, the
unclear brief `"help me write something"` with no model yields the fixed
clarifier and sets the marker. -/
theorem c3_preflight_amended_witness :
    ((getPreflightState (getState ((chatHandlerP oracleNone dbAlicePending
        (reqAlice "looks good")).2) "alice@example.com")).pending = false)
    ∧ ((chatHandlerP oracleNone dbAlice (reqAlice "help me write something")).1
        = ChatOut.ok preflightFallbackReply
      ∧ strEnds preflightFallbackReply "Am I on the right track?" = true
      ∧ (getPreflightState (getState ((chatHandlerP oracleNone dbAlice
          (reqAlice "help me write something")).2) "alice@example.com")).pending = true) :=
  ⟨c3_preflight_amended.2.1 oracleNone dbAlicePending (reqAlice "looks good") aliceRow
      (by decide) (by decide) (by decide),
   c3_preflight_amended.2.2 oracleNone dbAlice (reqAlice "help me write something") aliceRow
      (by decide) (by decide) (by decide) (by decide) (by decide)⟩

/-- Claim C10 (confirmed): the greeting short-circuit.  An authenticated
message that, trimmed and lowercased, has at most 12 characters and starts
with a greeting word gets the fixed reply `"Alright. What are we working
on?"` for every oracle (so independently of any model), and `user_state`
is left untouched — the branch runs before the preflight gate, so no
pending preflight marker is read, created, or cleared. -/
theorem c10_greeting_guard (o : Oracle) (db : DB) (req : ChatReq) (u : UserRow)
    (hA : getAuthedUser db.users req.email req.token = some u)
    (hG : isGreeting (jsLower (jsTrimS req.message)) = true) :
    ((chatHandlerP o db req).1 = ChatOut.ok greetingReply)
    ∧ (((chatHandlerP o db req).2).user_state = db.user_state) := by
  unfold chatHandlerP
  rw [hA]
  dsimp only
  rw [hG]
  constructor
  · rfl
  · exact (user_state_insertChatHistory _ req.email "assistant" greetingReply).trans
      ((user_state_maybeLearn o _ req.email req.message).trans
        (user_state_insertChatHistory db req.email "user" req.message))

/-- Claim C10 witness: the concrete greeting `"hi"` against the pending
fixture (the marker survives untouched). -/
theorem c10_greeting_guard_witness :
    ((chatHandlerP oracleNone dbAlicePending (reqAlice "hi")).1 = ChatOut.ok greetingReply)
    ∧ (((chatHandlerP oracleNone dbAlicePending (reqAlice "hi")).2).user_state
        = dbAlicePending.user_state) :=
  c10_greeting_guard oracleNone dbAlicePending (reqAlice "hi") aliceRow
    (by decide) (by decide)

end AgentBeta
